import Mathlib

/-!
Verification development for the NutriGraph temporal knowledge-graph
correlation engine (`prototypes/graph_enhanced.py`) and its structural
embedding layer (`backend/graph_embeddings.py`).

Modelling conventions (shallow embedding):
* The store is backed by `networkx.DiGraph`, a *simple* directed graph:
  node attribute dictionaries are modelled by the record `NodeData` whose
  fields are the attribute keys actually used anywhere in the code
  (`node_type`, `timestamp`, `photo_url`, `label`, `name`, `sentiment`,
  `symptom`, and `type`); a key absent from a node's dictionary is the
  field value `none`.  `add_node` on an existing node merges attributes,
  `add_edge` on an existing ordered pair replaces the edge attributes and
  auto-creates missing endpoints, exactly as in networkx.
* ISO-8601 timestamp strings are modelled by `TS`: a parseable string is
  identified with the integer number of seconds it denotes
  (`datetime.fromisoformat` then subtraction / `total_seconds` only ever
  observes that integer), an unparseable string is kept verbatim and
  `fromisoformat` raising is modelled by `TS.parse = none`.
* Node identifiers `meal_{k}`, `ingredient_{key}`, `nutrient_{key}`,
  `log_{k}`, `symptom_{key}` are modelled by the inductive `NodeId`; the
  five prefixes make the string forms of distinct constructors distinct,
  so this is a faithful renaming of the id strings.
* Python functions that can raise return `Except`/`Option`, carrying the
  mutated state at the raise point where the caller can observe it.
-/

set_option maxHeartbeats 2000000

/-- An ISO-8601 timestamp string: a parseable one is identified with the
integer second count it denotes, an unparseable one is kept as raw text. -/
inductive TS where
  | valid (seconds : Int)
  | invalid (raw : String)
deriving DecidableEq, Repr

/-- `datetime.fromisoformat`: succeeds exactly on parseable timestamps. -/
def TS.parse : TS → Option Int
  | TS.valid s => some s
  | TS.invalid _ => none

/-- Python truthiness test `not timestamp_str`: only the empty string is
falsy (a parseable ISO string is never empty). -/
def TS.isFalsy : TS → Bool
  | TS.valid _ => false
  | TS.invalid raw => raw = ""

/-- Node identifiers of the five node families, as produced by
`f"meal_{k}"`, `f"ingredient_{key}"`, `f"nutrient_{key}"`, `f"log_{k}"`,
`f"symptom_{key}"`. -/
inductive NodeId where
  | meal (k : Nat)
  | ingredient (key : String)
  | nutrient (key : String)
  | log (k : Nat)
  | symptom (key : String)
deriving DecidableEq, Repr

/-- The id string a `NodeId` denotes (used by the `.get("name", id)`
default in `query_ingredients_for_symptom`). -/
def NodeId.toIdString : NodeId → String
  | NodeId.meal k => "meal_" ++ toString k
  | NodeId.ingredient key => "ingredient_" ++ key
  | NodeId.nutrient key => "nutrient_" ++ key
  | NodeId.log k => "log_" ++ toString k
  | NodeId.symptom key => "symptom_" ++ key

/-- A node's attribute dictionary: one optional field per attribute key
the repository ever stores or reads.  The field `type` models the key
`"type"` read by `get_similar_nodes`; no constructor in the repository
ever writes that key (they write `node_type`). -/
structure NodeData where
  node_type : Option String := none
  timestamp : Option TS := none
  photo_url : Option String := none
  label : Option String := none
  name : Option String := none
  sentiment : Option String := none
  symptom : Option String := none
  type : Option String := none
deriving DecidableEq, Repr

/-- `dict.update` as performed by `add_node` on an existing node: keys
set by the new attribute dictionary overwrite, others are kept. -/
def NodeData.merge (old new : NodeData) : NodeData where
  node_type := new.node_type <|> old.node_type
  timestamp := new.timestamp <|> old.timestamp
  photo_url := new.photo_url <|> old.photo_url
  label := new.label <|> old.label
  name := new.name <|> old.name
  sentiment := new.sentiment <|> old.sentiment
  symptom := new.symptom <|> old.symptom
  type := new.type <|> old.type

/-- A directed edge with its attribute dictionary (`edge_type`, `label`). -/
structure Edge where
  src : NodeId
  tgt : NodeId
  edge_type : String
  label : String
deriving DecidableEq, Repr

/-- The `networkx.DiGraph`: insertion-ordered node dictionary and edge
set with at most one edge per ordered pair of nodes. -/
structure Graph where
  nodes : List (NodeId × NodeData) := []
  edges : List Edge := []
deriving DecidableEq, Repr

def Graph.nodeIds (g : Graph) : List NodeId := g.nodes.map Prod.fst

/-- Membership test `node_id in self.graph`. -/
def Graph.HasNode (g : Graph) (i : NodeId) : Prop := i ∈ g.nodeIds

instance (g : Graph) (i : NodeId) : Decidable (g.HasNode i) :=
  inferInstanceAs (Decidable (i ∈ g.nodeIds))

/-- `self.graph.nodes[i]` when present. -/
def Graph.lookupNode (g : Graph) (i : NodeId) : Option NodeData :=
  (g.nodes.find? fun p => decide (p.1 = i)).map Prod.snd

/-- `self.graph.nodes[i]`; networkx guarantees the node exists wherever
the code indexes (edge endpoints are always nodes), so the default `{}`
is never observed on states built by the operations. -/
def Graph.nodeDataD (g : Graph) (i : NodeId) : NodeData :=
  (g.lookupNode i).getD {}

/-- `networkx.DiGraph.add_node`: merge attributes into an existing node,
or append a fresh node at the end of the node dictionary. -/
def Graph.addNode (g : Graph) (i : NodeId) (d : NodeData) : Graph :=
  if g.HasNode i then
    { g with nodes := g.nodes.map fun p => if p.1 = i then (i, p.2.merge d) else p }
  else
    { g with nodes := g.nodes ++ [(i, d)] }

/-- Endpoint auto-creation performed by `networkx.DiGraph.add_edge`: a
missing endpoint becomes a node with an empty attribute dictionary. -/
def Graph.ensureNode (g : Graph) (i : NodeId) : Graph :=
  if g.HasNode i then g else { g with nodes := g.nodes ++ [(i, {})] }

/-- `networkx.DiGraph.add_edge`: auto-create missing endpoints, then
replace the attributes of an existing `(u, v)` edge or append a fresh
edge. -/
def Graph.addEdge (g : Graph) (u v : NodeId) (t l : String) : Graph :=
  let g2 := (g.ensureNode u).ensureNode v
  if g2.edges.any fun e => decide (e.src = u ∧ e.tgt = v) then
    { g2 with edges := g2.edges.map fun e =>
        if e.src = u ∧ e.tgt = v then ⟨u, v, t, l⟩ else e }
  else
    { g2 with edges := g2.edges ++ [⟨u, v, t, l⟩] }

/-- `self.graph.predecessors(x)`: sources of the edges into `x`. -/
def Graph.predecessors (g : Graph) (x : NodeId) : List NodeId :=
  (g.edges.filter fun e => decide (e.tgt = x)).map Edge.src

/-- `self.graph.successors(x)`: targets of the edges out of `x`. -/
def Graph.successors (g : Graph) (x : NodeId) : List NodeId :=
  (g.edges.filter fun e => decide (e.src = x)).map Edge.tgt

/-- `s.lower().replace(' ', '_')`, the canonical-key normalization used
for ingredient, nutrient and symptom names (character-wise: ASCII
lower-casing then space-to-underscore substitution). -/
def normKey (s : String) : String :=
  String.mk (s.data.map fun c => if c = ' ' then '_' else c.toLower)

/-- Python `str.title()`: upper-case every alphabetic character that
follows a non-alphabetic one, lower-case the remaining alphabetic
characters (used only for Ingredient display labels). -/
def pyTitle (s : String) : String :=
  String.mk (go false s.data)
where
  go : Bool → List Char → List Char
    | _, [] => []
    | prevAlpha, c :: rest =>
      if c.isAlpha then
        (if prevAlpha then c.toLower else c.toUpper) :: go true rest
      else
        c :: go false rest

/-- The dictionary returned by `get_stats`. -/
structure Stats where
  total_nodes : Nat
  total_edges : Nat
  meals : Nat
  ingredients : Nat
  nutrients : Nat
  user_logs : Nat
  symptoms : Nat
deriving DecidableEq, Repr

/-- Number of nodes whose `node_type` attribute equals `t`. -/
def Graph.countType (g : Graph) (t : String) : Nat :=
  (g.nodes.filter fun p => decide (p.2.node_type = some t)).length

/-- `get_stats`: total node/edge counts plus a count per node type. -/
def get_stats (g : Graph) : Stats where
  total_nodes := g.nodes.length
  total_edges := g.edges.length
  meals := g.countType "Meal"
  ingredients := g.countType "Ingredient"
  nutrients := g.countType "Nutrient"
  user_logs := g.countType "UserLog"
  symptoms := g.countType "Symptom"

/-- The `EnhancedNutriGraph` object: the shared `nx.DiGraph` plus the two
monotone id counters. -/
structure NutriState where
  graph : Graph := {}
  meal_counter : Nat := 0
  log_counter : Nat := 0
deriving DecidableEq, Repr

/-- `nutrients_json.get(ingredient_name, [])`. -/
def lookupListD (l : List (String × List String)) (k : String) : List String :=
  ((l.find? fun p => decide (p.1 = k)).map Prod.snd).getD []

/-- The attribute dictionary of a freshly created Ingredient node. -/
def ingredientData (name : String) : NodeData :=
  { node_type := some "Ingredient", name := some name,
    label := some (pyTitle name) }

/-- The attribute dictionary of a freshly created Nutrient node. -/
def nutrientData (name : String) : NodeData :=
  { node_type := some "Nutrient", name := some name, label := some name }

/-- The body of the per-nutrient inner loop of `add_meal`. -/
def addMealNutrientStep (ingredient_id : NodeId) (g : Graph)
    (nutrient_name : String) : Graph :=
  let nutrient_id := NodeId.nutrient (normKey nutrient_name)
  let g :=
    if g.HasNode nutrient_id then g
    else g.addNode nutrient_id (nutrientData nutrient_name)
  if g.edges.any fun e => decide (e.src = ingredient_id ∧ e.tgt = nutrient_id)
  then g
  else g.addEdge ingredient_id nutrient_id "HAS_NUTRIENT" "has nutrient"

/-- The body of the per-ingredient loop of `add_meal`: get-or-create the
Ingredient node, add the `CONTAINS` edge, then for each nutrient of that
ingredient get-or-create the Nutrient node and add `HAS_NUTRIENT` if not
already present between that pair. -/
def addMealIngredientStep (nutrients_json : List (String × List String))
    (meal_id : NodeId) (g : Graph) (ingredient_name : String) : Graph :=
  let ingredient_id := NodeId.ingredient (normKey ingredient_name)
  let g :=
    if g.HasNode ingredient_id then g
    else g.addNode ingredient_id (ingredientData ingredient_name)
  let g := g.addEdge meal_id ingredient_id "CONTAINS" "contains"
  (lookupListD nutrients_json ingredient_name).foldl
    (addMealNutrientStep ingredient_id) g

/-- The attribute dictionary of a freshly created Meal node (`counter`
is the already incremented meal counter shown in the label). -/
def mealData (timestamp : TS) (photo_url : Option String)
    (counter : Nat) : NodeData :=
  { node_type := some "Meal", timestamp := some timestamp,
    photo_url := photo_url, label := some ("Meal " ++ toString counter) }

/-- `add_meal(ingredients_json, nutrients_json, timestamp, photo_url)`.
`now` models `datetime.now().isoformat()`, used when `timestamp` is
`None`; `ingredients_json` is the list under the `"ingredients"` key. -/
def add_meal (now : TS) (st : NutriState) (ingredients_json : List String)
    (nutrients_json : List (String × List String)) (timestamp? : Option TS)
    (photo_url : Option String) : NutriState × NodeId :=
  let timestamp := timestamp?.getD now
  let meal_id := NodeId.meal st.meal_counter
  let counter : Nat := st.meal_counter + 1
  let g := st.graph.addNode meal_id (mealData timestamp photo_url counter)
  let g := ingredients_json.foldl (addMealIngredientStep nutrients_json meal_id) g
  ({ st with graph := g, meal_counter := counter }, meal_id)

/-- `round(time_diff.total_seconds() / 3600, 1)` in tenths of an hour.
Python rounds half to even on a float; the label string is presentation
only (never consulted by a query), so half-way cases are abstracted to
round-half-up here. -/
def hoursTenths (secs : Int) : Int := (secs * 10 + 1800) / 3600

/-- The `f"{hours_ago}h after meal"` label of a `LOGGED_NEAR` edge. -/
def hoursLabel (secs : Int) : String :=
  toString (hoursTenths secs / 10) ++ "." ++ toString ((hoursTenths secs) % 10)
    ++ "h after meal"

/-- The backward scan at the end of `add_user_log`: walk the node
dictionary, and for every `Meal` node whose timestamp is non-falsy and
parses to a time strictly before, and at most `window` seconds before,
the log time, add a `LOGGED_NEAR` edge from the meal to the new log.
An unparseable non-empty meal timestamp makes `fromisoformat` raise;
the error carries the graph mutated so far. -/
def scanMeals (log_time window : Int) (log_id : NodeId) :
    List (NodeId × NodeData) → Graph → Except Graph Graph
  | [], g => Except.ok g
  | p :: rest, g =>
    if p.2.node_type = some "Meal" then
      match p.2.timestamp with
      | none => scanMeals log_time window log_id rest g
      | some ts =>
        if ts.isFalsy then scanMeals log_time window log_id rest g
        else
          match ts.parse with
          | none => Except.error g
          | some meal_time =>
            let diff := log_time - meal_time
            if 0 < diff ∧ diff ≤ window then
              scanMeals log_time window log_id rest
                (g.addEdge p.1 log_id "LOGGED_NEAR" (hoursLabel diff))
            else scanMeals log_time window log_id rest g
    else scanMeals log_time window log_id rest g

/-- The attribute dictionary of a freshly created UserLog node. -/
def userLogData (symptom sentiment : String) (timestamp : TS) : NodeData :=
  { node_type := some "UserLog", sentiment := some sentiment,
    timestamp := some timestamp, symptom := some symptom,
    label := some (symptom ++ "\n(" ++ sentiment ++ ")") }

/-- The attribute dictionary of a freshly created Symptom node. -/
def symptomData (symptom : String) : NodeData :=
  { node_type := some "Symptom", name := some symptom, label := some symptom }

/-- The unconditional mutation prefix of `add_user_log` (lines before
the `fromisoformat` call): create the UserLog node (bumping the log
counter), get-or-create the Symptom node, add the `EXPERIENCED` edge. -/
def add_user_log_pre (st : NutriState) (symptom sentiment : String)
    (timestamp : TS) : NutriState :=
  let log_id := NodeId.log st.log_counter
  let g := st.graph.addNode log_id (userLogData symptom sentiment timestamp)
  let symptom_id := NodeId.symptom (normKey symptom)
  let g :=
    if g.HasNode symptom_id then g
    else g.addNode symptom_id (symptomData symptom)
  let g := g.addEdge log_id symptom_id "EXPERIENCED" "experienced"
  { st with graph := g, log_counter := st.log_counter + 1 }

/-- `add_user_log(symptom, sentiment, timestamp, time_window_hours)`:
create the UserLog node, get-or-create the Symptom node, add the
`EXPERIENCED` edge, then parse the log timestamp and run the meal scan.
A raise from `fromisoformat` is an `Except.error` carrying the mutated
state visible to the caller (Python default arguments:
`sentiment="neutral"`, `time_window_hours=3`). -/
def add_user_log (now : TS) (st : NutriState) (symptom sentiment : String)
    (timestamp? : Option TS) (time_window_hours : Int) :
    Except NutriState (NutriState × NodeId) :=
  let timestamp := timestamp?.getD now
  let log_id := NodeId.log st.log_counter
  let st1 := add_user_log_pre st symptom sentiment timestamp
  match timestamp.parse with
  | none => Except.error st1
  | some log_time =>
    match scanMeals log_time (3600 * time_window_hours) log_id
        st1.graph.nodes st1.graph with
    | Except.error g2 => Except.error { st1 with graph := g2 }
    | Except.ok g2 => Except.ok ({ st1 with graph := g2 }, log_id)

/-- The occurrence-counting dictionary `d[k] = d.get(k, 0) + 1`,
preserving first-insertion key order. -/
def bump [DecidableEq K] : List (K × Nat) → K → List (K × Nat)
  | [], k => [(k, 1)]
  | (k', c) :: rest, k =>
    if k' = k then (k', c + 1) :: rest else (k', c) :: bump rest k

/-- Fold a multiset of observed keys into the counting dictionary. -/
def buildCounts [DecidableEq K] (occ : List K) : List (K × Nat) :=
  occ.foldl bump []

/-- Stable insertion placing `x` after every element whose key is
strictly greater. -/
def insertDesc (key : α → β) [LinearOrder β] (x : α) : List α → List α
  | [] => [x]
  | y :: ys => if key x < key y then y :: insertDesc key x ys else x :: y :: ys

/-- Python `sorted(items, key=lambda x: x[1], reverse=True)`: the stable
descending sort by key. -/
def sortByDesc (key : α → β) [LinearOrder β] (l : List α) : List α :=
  l.foldr (insertDesc key) []

/-- The body of the innermost loop of `query_ingredients_for_symptom`:
keep a successor when its node is tagged `Ingredient`, yielding its
display name (`.get("name", node_id)`). -/
def ingNameF (g : Graph) (ingredient_id : NodeId) : Option String :=
  let d := g.nodeDataD ingredient_id
  if d.node_type = some "Ingredient" then
    some (d.name.getD ingredient_id.toIdString)
  else none

/-- `query_ingredients_for_symptom(symptom)`: resolve the symptom key
(unknown key returns `[]`), then count ingredient display names over all
`predecessors(symptom) → predecessors(log) → successors(meal)` paths and
sort descending by count. -/
def query_ingredients_for_symptom (g : Graph) (symptom : String) :
    List (String × Nat) :=
  let symptom_id := NodeId.symptom (normKey symptom)
  if ¬ g.HasNode symptom_id then []
  else
    let occ := (g.predecessors symptom_id).flatMap fun log_id =>
      (g.predecessors log_id).flatMap fun meal_id =>
        (g.successors meal_id).filterMap (ingNameF g)
    sortByDesc (fun p => p.2) (buildCounts occ)

/-- `get_symptom_frequency(symptom)`: number of predecessors of the
Symptom node, `0` when the key is unknown. -/
def get_symptom_frequency (g : Graph) (symptom : String) : Nat :=
  let symptom_id := NodeId.symptom (normKey symptom)
  if ¬ g.HasNode symptom_id then 0
  else (g.predecessors symptom_id).length

/-- `mapM`-with-append over `Option`, short-circuiting at the first
failure in list order (the order in which a Python `for` loop raises). -/
def collectSome (f : α → Option (List β)) : List α → Option (List β)
  | [] => some []
  | x :: xs =>
    match f x with
    | none => none
    | some ys =>
      match collectSome f xs with
      | none => none
      | some rest => some (ys ++ rest)

/-- The Symptom names one *other* log contributes: its Symptom-typed
successors, the queried symptom itself excluded (the raw `.get("name")`
values, hence `Option String`). -/
def coOccurCollect (g : Graph) (symptom_id other_id : NodeId) :
    List (Option String) :=
  (g.successors other_id).filterMap fun sid =>
    if (g.nodeDataD sid).node_type = some "Symptom" ∧ sid ≠ symptom_id
    then some ((g.nodeDataD sid).name) else none

/-- The body of the inner loop of `get_co_occurring_symptoms` for one
candidate node-dictionary entry: a *different* `UserLog` node whose
timestamp is within 3600 seconds (absolute difference) of the processed
log contributes its collected symptom names.  `none` models
`fromisoformat` raising on an unparseable non-empty timestamp. -/
def coOccurPerOther (g : Graph) (symptom_id log_id : NodeId)
    (log_time : Int) (p : NodeId × NodeData) :
    Option (List (Option String)) :=
  if p.2.node_type = some "UserLog" ∧ p.1 ≠ log_id then
    match p.2.timestamp with
    | none => some []
    | some ts =>
      if ts.isFalsy then some []
      else
        match ts.parse with
        | none => none
        | some other_time =>
          if (log_time - other_time).natAbs ≤ 3600 then
            some (coOccurCollect g symptom_id p.1)
          else some []
  else some []

/-- The inner scan of `get_co_occurring_symptoms` for one log of the
queried symptom, over the whole node dictionary. -/
def coOccurNamesForLog (g : Graph) (symptom_id log_id : NodeId)
    (log_time : Int) : Option (List (Option String)) :=
  collectSome (coOccurPerOther g symptom_id log_id log_time) g.nodes

/-- The outer-loop body of `get_co_occurring_symptoms` for one
predecessor of the queried Symptom node: skip it when its timestamp is
absent or falsy, raise (`none`) when it is unparseable, else run the
inner scan at its parsed time. -/
def coOccurPerLog (g : Graph) (symptom_id : NodeId) (log_id : NodeId) :
    Option (List (Option String)) :=
  match (g.nodeDataD log_id).timestamp with
  | none => some []
  | some ts =>
    if ts.isFalsy then some []
    else
      match ts.parse with
      | none => none
      | some log_time => coOccurNamesForLog g symptom_id log_id log_time

/-- `get_co_occurring_symptoms(symptom)`: unknown key returns `[]`; else
for every predecessor log of the Symptom node with a non-falsy parseable
timestamp, collect co-occurring symptom names, count and sort
descending.  `none` models the `fromisoformat` raise escaping to the
caller; dictionary keys are the raw `.get("name")` values, hence
`Option String`. -/
def get_co_occurring_symptoms (g : Graph) (symptom : String) :
    Option (List (Option String × Nat)) :=
  let symptom_id := NodeId.symptom (normKey symptom)
  if ¬ g.HasNode symptom_id then some []
  else
    match collectSome (coOccurPerLog g symptom_id)
        (g.predecessors symptom_id) with
    | none => none
    | some occ => some (sortByDesc (fun p => p.2) (buildCounts occ))

/-! ## Structural embedding engine (`backend/graph_embeddings.py`) -/

/-- An embedding vector.  Similarity scores are rationals; the sklearn
`cosine_similarity` call is abstracted into an explicit score-function
parameter wherever it is used (it is external library code). -/
abbrev Vec := List Rat

/-- The contents of a previously written `embeddings.pkl` cache file. -/
structure CacheData where
  embeddings : List (NodeId × Vec)
  is_trained : Bool
deriving DecidableEq

/-- The mutable fields of `GraphEmbeddingEngine` (the gensim model
object itself is opaque and only ever read through `embeddings`). -/
structure EngineState where
  graph : Graph
  embeddings : List (NodeId × Vec) := []
  is_trained : Bool := false
deriving DecidableEq

/-- `GraphEmbeddingEngine.__init__(graph, cache_dir)`: stores the graph,
creates the cache directory, and initialises `embeddings = {}` and
`is_trained = False`.  The `cache` parameter models the cache file
present on disk at construction; the constructor does not read it (no
call to `_load_cache` appears in `__init__` or anywhere else in the
repository). -/
def engineInit (cache : Option CacheData) (g : Graph) : EngineState :=
  let _ := cache
  { graph := g, embeddings := [], is_trained := false }

/-- `GraphEmbeddingEngine._load_cache`: if a cache file exists, replace
the embedding table and trained flag from it and report `True`, else
report `False`.  Defined in the source but never invoked by any caller
in the repository. -/
def load_cache (cache : Option CacheData) (es : EngineState) :
    EngineState × Bool :=
  match cache with
  | none => (es, false)
  | some c => ({ es with embeddings := c.embeddings, is_trained := c.is_trained }, true)

/-- The structured status dictionary returned by `train_embeddings`. -/
inductive TrainResult where
  | skipped (reason : String) (node_count : Nat)
  | success (node_count dimensions total_walks : Nat)
  | error (msg : String)
deriving DecidableEq, Repr

/-- `train_embeddings(dimensions, walk_length, num_walks, p, q, workers)`.
The fallible external work inside the `try` block — Node2Vec walk
generation, the gensim fit, and reading `model.wv` per node — is
abstracted into the `fit` parameter (its `Except.error` carries
`str(e)`); `saveErr` abstracts a raise from `pickle.dump` inside
`_save_cache`, which happens *after* `is_trained` is set, so a save
failure returns an error status from an engine already trained. -/
def train_embeddings (fit : Except String (List (NodeId × Vec)))
    (saveErr : Option String) (dimensions num_walks : Nat)
    (es : EngineState) : EngineState × TrainResult :=
  if es.graph.nodes.length < 5 then
    (es, TrainResult.skipped "Not enough nodes" es.graph.nodes.length)
  else
    match fit with
    | Except.error e => (es, TrainResult.error e)
    | Except.ok embs =>
      let es' := { es with embeddings := embs, is_trained := true }
      match saveErr with
      | some m => (es', TrainResult.error m)
      | none =>
        (es', TrainResult.success embs.length dimensions
          (num_walks * es.graph.nodes.length))

/-- `embeddings.get(node_id)` / `node_id in self.embeddings`. -/
def lookupEmb (l : List (NodeId × Vec)) (i : NodeId) : Option Vec :=
  (l.find? fun p => decide (p.1 = i)).map Prod.snd

/-- Python truthiness of the `node_type` filter argument: `None` and the
empty string disable the filter. -/
def filterActive : Option String → Bool
  | none => false
  | some t => ¬ (t = "")

/-- `get_similar_nodes(node_id, top_k, node_type)`: empty unless trained
and `node_id` has an embedding; otherwise score every *other* embedded
node (when the `node_type` filter is truthy, keep only nodes whose
`"type"` attribute in the graph equals it — note the graph's nodes carry
their tag under the key `"node_type"`, not `"type"`), stable-sort
descending by score and truncate to `top_k`.  `sim` abstracts sklearn's
`cosine_similarity`. -/
def get_similar_nodes (sim : Vec → Vec → Rat) (es : EngineState)
    (node_id : NodeId) (top_k : Nat) (node_type : Option String) :
    List (NodeId × Rat) :=
  if ¬ es.is_trained then []
  else
    match lookupEmb es.embeddings node_id with
    | none => []
    | some target =>
      let similarities := es.embeddings.filterMap fun p =>
        if p.1 = node_id then none
        else if filterActive node_type ∧
            ¬ ((es.graph.nodeDataD p.1).type = node_type) then none
        else some (p.1, sim target p.2)
      (sortByDesc (fun p => p.2) similarities).take top_k

/-! ## Well-formedness

States reachable through `add_meal` / `add_user_log` from a fresh
`EnhancedNutriGraph()` satisfy the following decidable invariants, which
several theorems assume; each witness discharges them by `decide` on a
state actually built by the operations. -/

/-- The `node_type` tag and the keyed attributes each id family carries. -/
def nodeAttrOkB : NodeId × NodeData → Bool
  | (NodeId.meal _, d) => d.node_type = some "Meal"
  | (NodeId.ingredient k, d) =>
    decide (d.node_type = some "Ingredient") &&
      match d.name with
      | some nm => decide (k = normKey nm)
      | none => false
  | (NodeId.nutrient k, d) =>
    decide (d.node_type = some "Nutrient") &&
      match d.name with
      | some nm => decide (k = normKey nm)
      | none => false
  | (NodeId.log _, d) => d.node_type = some "UserLog"
  | (NodeId.symptom k, d) =>
    decide (d.node_type = some "Symptom") &&
      match d.name with
      | some nm => decide (k = normKey nm)
      | none => false

/-- The four edge shapes the operations create, identified by the id
families of the endpoints. -/
def edgeShapeOkB : Edge → Bool
  | ⟨NodeId.meal _, NodeId.ingredient _, t, _⟩ => t = "CONTAINS"
  | ⟨NodeId.ingredient _, NodeId.nutrient _, t, _⟩ => t = "HAS_NUTRIENT"
  | ⟨NodeId.meal _, NodeId.log _, t, _⟩ => t = "LOGGED_NEAR"
  | ⟨NodeId.log _, NodeId.symptom _, t, _⟩ => t = "EXPERIENCED"
  | _ => False

/-- Graph invariants: unique node ids, at most one edge per ordered
pair, attribute/shape consistency, and edge endpoints present among the
nodes. -/
def GraphWF (g : Graph) : Prop :=
  g.nodeIds.Nodup ∧
  (g.edges.map fun e => (e.src, e.tgt)).Nodup ∧
  (∀ p ∈ g.nodes, nodeAttrOkB p = true) ∧
  (∀ e ∈ g.edges, edgeShapeOkB e = true) ∧
  (∀ e ∈ g.edges, g.HasNode e.src ∧ g.HasNode e.tgt)

instance (g : Graph) : Decidable (GraphWF g) := by
  unfold GraphWF; infer_instance

/-- Counter freshness: every `meal_{k}` / `log_{k}` id in the graph has
`k` below the corresponding counter. -/
def counterOkB (st : NutriState) : NodeId → Bool
  | NodeId.meal k => k < st.meal_counter
  | NodeId.log k => k < st.log_counter
  | _ => true

/-- Store invariants: graph invariants plus counter freshness. -/
def StateWF (st : NutriState) : Prop :=
  GraphWF st.graph ∧ ∀ i ∈ st.graph.nodeIds, counterOkB st i = true

instance (st : NutriState) : Decidable (StateWF st) := by
  unfold StateWF; infer_instance

example : normKey "High Energy" = "high_energy" := by decide
example : pyTitle "cherry tomatoes" = "Cherry Tomatoes" := by decide

/-! ## Association-list and counting lemmas -/

/-- First-match association-list lookup (`dict.get`). -/
def alookup [DecidableEq K] (l : List (K × V)) (a : K) : Option V :=
  (l.find? fun p => decide (p.1 = a)).map Prod.snd

/-- The key sequence of an association list. -/
def akeys (l : List (K × V)) : List K := l.map Prod.fst

theorem alookup_nil [DecidableEq K] (a : K) :
    alookup ([] : List (K × V)) a = none := rfl

theorem alookup_cons [DecidableEq K] (k : K) (v : V) (l : List (K × V)) (a : K) :
    alookup ((k, v) :: l) a = if k = a then some v else alookup l a := by
  by_cases h : k = a <;> simp [alookup, List.find?, h]

theorem bump_alookup [DecidableEq K] (l : List (K × Nat)) (k a : K) :
    alookup (bump l k) a =
      if k = a then some ((alookup l a).getD 0 + 1) else alookup l a := by
  induction l with
  | nil =>
    by_cases h : k = a <;> simp [bump, alookup_cons, alookup_nil, h]
  | cons p rest ih =>
    obtain ⟨k', c⟩ := p
    by_cases hk : k' = k
    · subst hk
      by_cases h : k' = a <;> simp [bump, alookup_cons, h]
    · by_cases h : k' = a
      · subst h
        have : ¬ k = k' := fun hc => hk hc.symm
        simp [bump, hk, alookup_cons, this]
      · simp [bump, hk, alookup_cons, h, ih]

theorem bump_akeys [DecidableEq K] (l : List (K × Nat)) (k : K) :
    akeys (bump l k) = if k ∈ akeys l then akeys l else akeys l ++ [k] := by
  induction l with
  | nil => simp [bump, akeys]
  | cons p rest ih =>
    obtain ⟨k', c⟩ := p
    by_cases hk : k' = k
    · subst hk; simp [bump, akeys]
    · have hne : ¬ k = k' := fun hc => hk hc.symm
      have hcons : akeys ((k', c) :: bump rest k) = k' :: akeys (bump rest k) := rfl
      simp only [bump, if_neg hk]
      rw [hcons, ih]
      have hm2 : akeys ((k', c) :: rest) = k' :: akeys rest := rfl
      rw [hm2]
      simp only [List.mem_cons, hne, false_or]
      by_cases hm : k ∈ akeys rest
      · simp [hm]
      · simp [hm]

theorem bump_akeys_nodup [DecidableEq K] (l : List (K × Nat)) (k : K)
    (h : (akeys l).Nodup) : (akeys (bump l k)).Nodup := by
  rw [bump_akeys]
  by_cases hm : k ∈ akeys l
  · simpa [hm]
  · rw [if_neg hm]
    refine List.Nodup.append h (List.nodup_singleton k) ?_
    intro x hx hx'
    rcases List.mem_singleton.mp hx' with rfl
    exact hm hx

theorem foldl_bump_alookup [DecidableEq K] (occ : List K)
    (acc : List (K × Nat)) (a : K) :
    alookup (occ.foldl bump acc) a =
      match alookup acc a with
      | some c => some (c + occ.count a)
      | none => if occ.count a = 0 then none else some (occ.count a) := by
  induction occ generalizing acc with
  | nil => cases h : alookup acc a <;> simp [h]
  | cons b occ' ih =>
    rw [List.foldl_cons, ih (bump acc b), bump_alookup]
    by_cases hba : b = a
    · subst hba
      cases h : alookup acc b with
      | none => simp [h, List.count_cons]; omega
      | some c => simp [h, List.count_cons]; omega
    · have hab : ¬ a = b := fun hc => hba hc.symm
      cases h : alookup acc a <;> simp [hba, h, List.count_cons, hab]

theorem buildCounts_alookup [DecidableEq K] (occ : List K) (a : K) :
    alookup (buildCounts occ) a =
      if occ.count a = 0 then none else some (occ.count a) := by
  simpa using foldl_bump_alookup occ [] a

theorem foldl_bump_akeys_nodup [DecidableEq K] (occ : List K)
    (acc : List (K × Nat)) (h : (akeys acc).Nodup) :
    (akeys (occ.foldl bump acc)).Nodup := by
  induction occ generalizing acc with
  | nil => simpa using h
  | cons b occ' ih => exact ih (bump acc b) (bump_akeys_nodup acc b h)

theorem buildCounts_akeys_nodup [DecidableEq K] (occ : List K) :
    (akeys (buildCounts occ)).Nodup :=
  foldl_bump_akeys_nodup occ [] (by simp [akeys])

theorem mem_iff_alookup [DecidableEq K] {l : List (K × V)}
    (h : (akeys l).Nodup) (a : K) (v : V) :
    (a, v) ∈ l ↔ alookup l a = some v := by
  induction l with
  | nil => simp [alookup_nil]
  | cons p rest ih =>
    obtain ⟨k, w⟩ := p
    have h' : (k :: akeys rest).Nodup := h
    have hk : k ∉ akeys rest := (List.nodup_cons.mp h').1
    have hrest : (akeys rest).Nodup := (List.nodup_cons.mp h').2
    rw [alookup_cons]
    by_cases he : k = a
    · subst he
      rw [if_pos rfl]
      constructor
      · intro h''
        rcases List.mem_cons.mp h'' with h'' | h''
        · rw [Prod.mk.injEq] at h''
          rw [h''.2]
        · exact absurd (List.mem_map_of_mem Prod.fst h'') hk
      · intro h''
        rw [Option.some_inj] at h''
        rw [h'']
        exact List.mem_cons_self _ _
    · rw [if_neg he]
      constructor
      · intro h''
        rcases List.mem_cons.mp h'' with h'' | h''
        · exact absurd (congrArg Prod.fst h'').symm he
        · exact (ih hrest).mp h''
      · intro h''
        exact List.mem_cons_of_mem _ ((ih hrest).mpr h'')

theorem mem_buildCounts_iff [DecidableEq K] (occ : List K) (a : K) (c : Nat) :
    (a, c) ∈ buildCounts occ ↔ occ.count a = c ∧ 0 < c := by
  rw [mem_iff_alookup (buildCounts_akeys_nodup occ), buildCounts_alookup]
  by_cases h : occ.count a = 0
  · simp [h]; omega
  · simp [h]; omega

/-! ## Stable descending sort lemmas -/

theorem insertDesc_perm (key : α → β) [LinearOrder β] (x : α) (l : List α) :
    (insertDesc key x l).Perm (x :: l) := by
  induction l with
  | nil => simp [insertDesc]
  | cons y ys ih =>
    by_cases h : key x < key y
    · simp only [insertDesc, if_pos h]
      exact (ih.cons y).trans (List.Perm.swap x y ys)
    · simp [insertDesc, h]

theorem sortByDesc_perm (key : α → β) [LinearOrder β] (l : List α) :
    (sortByDesc key l).Perm l := by
  induction l with
  | nil => simp [sortByDesc]
  | cons y ys ih =>
    exact (insertDesc_perm key y (sortByDesc key ys)).trans (ih.cons y)

theorem mem_sortByDesc (key : α → β) [LinearOrder β] (a : α) (l : List α) :
    a ∈ sortByDesc key l ↔ a ∈ l :=
  (sortByDesc_perm key l).mem_iff

theorem insertDesc_pairwise (key : α → β) [LinearOrder β] (x : α) (l : List α)
    (h : l.Pairwise fun a b => key b ≤ key a) :
    (insertDesc key x l).Pairwise fun a b => key b ≤ key a := by
  induction l with
  | nil => simp [insertDesc]
  | cons y ys ih =>
    rcases List.pairwise_cons.mp h with ⟨hy, hys⟩
    by_cases hlt : key x < key y
    · simp only [insertDesc, if_pos hlt]
      refine List.pairwise_cons.mpr ⟨?_, ih hys⟩
      intro z hz
      have hz' := (insertDesc_perm key x ys).mem_iff.mp hz
      rcases List.mem_cons.mp hz' with rfl | hz'
      · exact le_of_lt hlt
      · exact hy z hz'
    · simp only [insertDesc, if_neg hlt]
      refine List.pairwise_cons.mpr ⟨?_, h⟩
      intro z hz
      rcases List.mem_cons.mp hz with rfl | hz
      · exact le_of_not_lt hlt
      · exact le_trans (hy z hz) (le_of_not_lt hlt)

theorem sortByDesc_pairwise (key : α → β) [LinearOrder β] (l : List α) :
    (sortByDesc key l).Pairwise fun a b => key b ≤ key a := by
  induction l with
  | nil => simp [sortByDesc]
  | cons y ys ih => exact insertDesc_pairwise key y _ ih

/-! ## `collectSome` lemmas -/

theorem collectSome_isSome (f : α → Option (List β)) (l : List α)
    (h : ∀ x ∈ l, (f x).isSome) : (collectSome f l).isSome := by
  induction l with
  | nil => simp [collectSome]
  | cons x xs ih =>
    have hx := h x (List.mem_cons_self x xs)
    cases hfx : f x with
    | none => rw [hfx] at hx; simp at hx
    | some ys =>
      have := ih fun y hy => h y (List.mem_cons_of_mem x hy)
      cases hrest : collectSome f xs with
      | none => rw [hrest] at this; simp at this
      | some rest => simp [collectSome, hfx, hrest]

theorem collectSome_mem (f : α → Option (List β)) {l : List α}
    {out : List β} (h : collectSome f l = some out) {x : α} (hx : x ∈ l)
    {ys : List β} (hys : f x = some ys) {b : β} (hb : b ∈ ys) : b ∈ out := by
  induction l generalizing out with
  | nil => simp at hx
  | cons z zs ih =>
    rcases hfz : f z with _ | ws
    · simp [collectSome, hfz] at h
    · rcases hrest : collectSome f zs with _ | rest
      · simp [collectSome, hfz, hrest] at h
      · simp only [collectSome, hfz, hrest] at h
        cases h
        rcases List.mem_cons.mp hx with hx | hx
        · subst hx
          rw [hfz] at hys; cases hys
          exact List.mem_append_left _ hb
        · exact List.mem_append_right _ (ih hrest hx)

/-! ## Graph-operation lemmas -/

theorem ensureNode_edges (g : Graph) (i : NodeId) :
    (g.ensureNode i).edges = g.edges := by
  unfold Graph.ensureNode
  split <;> rfl

theorem ensureNode_of_hasNode (g : Graph) (i : NodeId) (h : g.HasNode i) :
    g.ensureNode i = g := by
  unfold Graph.ensureNode
  rw [if_pos h]

theorem addNode_edges (g : Graph) (i : NodeId) (d : NodeData) :
    (g.addNode i d).edges = g.edges := by
  unfold Graph.addNode
  split <;> rfl

theorem addNode_fresh (g : Graph) (i : NodeId) (d : NodeData)
    (h : ¬ g.HasNode i) : (g.addNode i d).nodes = g.nodes ++ [(i, d)] := by
  unfold Graph.addNode
  rw [if_neg h]

theorem hasNode_iff (g : Graph) (i : NodeId) :
    g.HasNode i ↔ ∃ d, (i, d) ∈ g.nodes := by
  unfold Graph.HasNode Graph.nodeIds
  constructor
  · intro h
    rcases List.mem_map.mp h with ⟨p, hp, he⟩
    exact ⟨p.2, by rwa [show (i, p.2) = p from Prod.ext he.symm rfl]⟩
  · rintro ⟨d, hd⟩
    exact List.mem_map.mpr ⟨(i, d), hd, rfl⟩

theorem addEdge_edges_of_fresh (g : Graph) (u v : NodeId) (t l : String)
    (h : ∀ e ∈ g.edges, ¬ (e.src = u ∧ e.tgt = v)) :
    (g.addEdge u v t l).edges = g.edges ++ [⟨u, v, t, l⟩] := by
  have hany : (g.edges.any fun e => decide (e.src = u ∧ e.tgt = v)) = false := by
    rw [List.any_eq_false]
    intro e he
    simpa using h e he
  have hne : ¬ ((g.edges.any fun e => decide (e.src = u ∧ e.tgt = v)) = true) := by
    rw [hany]; exact Bool.false_ne_true
  simp only [Graph.addEdge, ensureNode_edges, if_neg hne]

theorem addEdge_nodes_of_hasNodes (g : Graph) (u v : NodeId) (t l : String)
    (hu : g.HasNode u) (hv : g.HasNode v) :
    (g.addEdge u v t l).nodes = g.nodes := by
  simp only [Graph.addEdge, ensureNode_of_hasNode g u hu,
    ensureNode_of_hasNode g v hv]
  split <;> rfl

theorem mem_addEdge_edges (g : Graph) (u v : NodeId) (t l : String) (e : Edge)
    (h : e ∈ (g.addEdge u v t l).edges) : e ∈ g.edges ∨ e = ⟨u, v, t, l⟩ := by
  simp only [Graph.addEdge, ensureNode_edges] at h
  by_cases hc : (g.edges.any fun e => decide (e.src = u ∧ e.tgt = v)) = true
  · rw [if_pos hc] at h
    simp only at h
    rcases List.mem_map.mp h with ⟨e', he', heq⟩
    by_cases hcond : e'.src = u ∧ e'.tgt = v
    · right
      rw [if_pos hcond] at heq
      exact heq.symm
    · left
      rw [if_neg hcond] at heq
      exact heq ▸ he'
  · rw [if_neg hc] at h
    simp only at h
    rcases List.mem_append.mp h with h | h
    · exact Or.inl h
    · exact Or.inr (List.mem_singleton.mp h)

theorem mem_predecessors (g : Graph) (v x : NodeId) :
    x ∈ g.predecessors v ↔ ∃ e ∈ g.edges, e.tgt = v ∧ e.src = x := by
  unfold Graph.predecessors
  simp only [List.mem_map, List.mem_filter, decide_eq_true_eq]
  constructor
  · rintro ⟨e, ⟨he, ht⟩, rfl⟩
    exact ⟨e, he, ht, rfl⟩
  · rintro ⟨e, he, ht, rfl⟩
    exact ⟨e, ⟨he, ht⟩, rfl⟩

theorem mem_successors (g : Graph) (u x : NodeId) :
    x ∈ g.successors u ↔ ∃ e ∈ g.edges, e.src = u ∧ e.tgt = x := by
  unfold Graph.successors
  simp only [List.mem_map, List.mem_filter, decide_eq_true_eq]
  constructor
  · rintro ⟨e, ⟨he, ht⟩, rfl⟩
    exact ⟨e, he, ht, rfl⟩
  · rintro ⟨e, he, ht, rfl⟩
    exact ⟨e, ⟨he, ht⟩, rfl⟩

theorem mem_addEdge_self (g : Graph) (u v : NodeId) (t l : String) :
    (⟨u, v, t, l⟩ : Edge) ∈ (g.addEdge u v t l).edges := by
  simp only [Graph.addEdge, ensureNode_edges]
  by_cases hc : (g.edges.any fun e => decide (e.src = u ∧ e.tgt = v)) = true
  · rw [if_pos hc]
    rcases List.any_eq_true.mp hc with ⟨e, he, hcond⟩
    rw [decide_eq_true_eq] at hcond
    exact List.mem_map.mpr ⟨e, he, by rw [if_pos hcond]⟩
  · rw [if_neg hc]
    exact List.mem_append_right _ (List.mem_singleton.mpr rfl)

theorem addEdge_uv_unique (g : Graph) (u v : NodeId) (t l : String) (e : Edge)
    (he : e ∈ (g.addEdge u v t l).edges) (hs : e.src = u) (ht : e.tgt = v) :
    e = ⟨u, v, t, l⟩ := by
  simp only [Graph.addEdge, ensureNode_edges] at he
  by_cases hc : (g.edges.any fun e => decide (e.src = u ∧ e.tgt = v)) = true
  · rw [if_pos hc] at he
    rcases List.mem_map.mp he with ⟨e', he', heq⟩
    by_cases hcond : e'.src = u ∧ e'.tgt = v
    · rw [if_pos hcond] at heq
      exact heq.symm
    · rw [if_neg hcond] at heq
      subst heq
      exact absurd ⟨hs, ht⟩ hcond
  · rw [if_neg hc] at he
    rcases List.mem_append.mp he with he | he
    · exact absurd (List.any_eq_true.mpr ⟨e, he, by simpa using ⟨hs, ht⟩⟩) hc
    · exact List.mem_singleton.mp he

theorem addEdge_length_of_exists (g : Graph) (u v : NodeId) (t l : String)
    (h : ∃ e ∈ g.edges, e.src = u ∧ e.tgt = v) :
    (g.addEdge u v t l).edges.length = g.edges.length := by
  have hc : (g.edges.any fun e => decide (e.src = u ∧ e.tgt = v)) = true := by
    rcases h with ⟨e, he, hcond⟩
    exact List.any_eq_true.mpr ⟨e, he, by simpa using hcond⟩
  simp only [Graph.addEdge, ensureNode_edges, if_pos hc]
  exact List.length_map _ _

/-- Claim C3: the backing store is `nx.DiGraph`, a *simple* directed
graph — re-adding an edge between an ordered node pair that already has
one replaces the existing edge's attributes in place and leaves the
total edge count of `get_stats` unchanged; the pair ends up with exactly
one edge carrying the *second* edge type. -/
theorem C3_digraph_overwrite (g : Graph) (u v : NodeId)
    (t1 l1 t2 l2 : String) :
    (get_stats ((g.addEdge u v t1 l1).addEdge u v t2 l2)).total_edges =
      (get_stats (g.addEdge u v t1 l1)).total_edges ∧
    (⟨u, v, t2, l2⟩ : Edge) ∈ ((g.addEdge u v t1 l1).addEdge u v t2 l2).edges ∧
    (∀ e ∈ ((g.addEdge u v t1 l1).addEdge u v t2 l2).edges,
      e.src = u → e.tgt = v → e = ⟨u, v, t2, l2⟩) := by
  refine ⟨?_, mem_addEdge_self _ u v t2 l2, fun e he hs ht =>
    addEdge_uv_unique _ u v t2 l2 e he hs ht⟩
  simp only [get_stats]
  exact addEdge_length_of_exists (g.addEdge u v t1 l1) u v t2 l2
    ⟨⟨u, v, t1, l1⟩, mem_addEdge_self g u v t1 l1, rfl, rfl⟩

/-- The two-node graph of claim C3's counterexample. -/
def c3Base : Graph :=
  (({} : Graph).addNode (NodeId.meal 0)
      { node_type := some "Meal", timestamp := some (TS.valid 0) }).addNode
    (NodeId.ingredient "x") { node_type := some "Ingredient", name := some "x" }

/-- The graph after adding a `CONTAINS` and then a differently typed
edge between the same ordered pair of nodes. -/
def c3Twice : Graph :=
  (c3Base.addEdge (NodeId.meal 0) (NodeId.ingredient "x") "CONTAINS"
      "contains").addEdge (NodeId.meal 0) (NodeId.ingredient "x")
    "LOGGED_NEAR" "0.1h after meal"

/-- Claim C3 as stated is false: after adding two edges of different
types between the same ordered pair, `get_stats` counts one edge, and no
`CONTAINS` edge survives — the first edge was overwritten, the two do
not coexist. -/
theorem C3_counterexample :
    (get_stats c3Twice).total_edges = 1 ∧
    c3Twice.edges = [⟨NodeId.meal 0, NodeId.ingredient "x", "LOGGED_NEAR",
      "0.1h after meal"⟩] ∧
    (c3Twice.edges.all fun e => decide (¬ e.edge_type = "CONTAINS")) = true := by
  decide

/-- A populated cache file for claim C5's counterexample, marked
trained. -/
def c5Cache : CacheData :=
  { embeddings := [(NodeId.ingredient "avocado", [(1 : Rat)])], is_trained := true }

/-- A small store graph for claim C5's counterexample. -/
def c5Graph : Graph :=
  ({} : Graph).addNode (NodeId.ingredient "avocado")
    { node_type := some "Ingredient", name := some "avocado" }

/-- Claim C5 as stated is false: constructing the engine while a
previously written, trained cache file is present still yields an
untrained engine with an empty embedding table, and a similarity query
on it returns the empty list instead of succeeding. -/
theorem C5_counterexample :
    c5Cache.is_trained = true ∧
    (engineInit (some c5Cache) c5Graph).is_trained = false ∧
    (engineInit (some c5Cache) c5Graph).embeddings = [] ∧
    get_similar_nodes (fun _ _ => 1) (engineInit (some c5Cache) c5Graph)
      (NodeId.ingredient "avocado") 5 none = [] := by
  exact ⟨rfl, rfl, rfl, rfl⟩

/-- Claim C5, amended: `__init__` ignores any cache file on disk — the
engine always starts untrained with an empty embedding table — while the
`_load_cache` method, which would restore the cached table and trained
flag, exists but is never invoked during construction (or anywhere else
in the repository). -/
theorem C5_init_ignores_cache (cache : Option CacheData) (g : Graph) :
    (engineInit cache g).is_trained = false ∧
    (engineInit cache g).embeddings = [] ∧
    (engineInit cache g).graph = g ∧
    (∀ c : CacheData, (load_cache (some c) (engineInit cache g)).1.is_trained =
        c.is_trained ∧
      (load_cache (some c) (engineInit cache g)).1.embeddings = c.embeddings ∧
      (load_cache (some c) (engineInit cache g)).2 = true) ∧
    load_cache none (engineInit cache g) = (engineInit cache g, false) :=
  ⟨rfl, rfl, rfl, fun _ => ⟨rfl, rfl, rfl⟩, rfl⟩

/-- Claim C7: `train_embeddings` on a graph with fewer than five nodes
returns the structured `skipped` status carrying the current node count
and leaves the engine unchanged (hence untrained if it was); with at
least five nodes and a successful fit-and-save it returns `success` and
marks the engine trained; any internal failure (a raise from the
Node2Vec/gensim fit, or from the cache save that runs after the trained
flag is set) is returned as a structured `error` status carrying the
message — the function is total, never propagating an exception. -/
theorem C7_train_gate (fit : Except String (List (NodeId × Vec)))
    (saveErr : Option String) (dims nw : Nat) (es : EngineState) :
    (es.graph.nodes.length < 5 →
      train_embeddings fit saveErr dims nw es =
        (es, TrainResult.skipped "Not enough nodes" es.graph.nodes.length)) ∧
    (5 ≤ es.graph.nodes.length →
      (∀ embs, fit = Except.ok embs → saveErr = none →
        train_embeddings fit saveErr dims nw es =
          ({ es with embeddings := embs, is_trained := true },
            TrainResult.success embs.length dims
              (nw * es.graph.nodes.length))) ∧
      (∀ m, fit = Except.error m →
        train_embeddings fit saveErr dims nw es = (es, TrainResult.error m)) ∧
      (∀ embs m, fit = Except.ok embs → saveErr = some m →
        train_embeddings fit saveErr dims nw es =
          ({ es with embeddings := embs, is_trained := true },
            TrainResult.error m))) := by
  constructor
  · intro hlt
    unfold train_embeddings
    rw [if_pos hlt]
  · intro hge
    have hnlt : ¬ es.graph.nodes.length < 5 := by omega
    refine ⟨?_, ?_, ?_⟩
    · rintro embs rfl rfl
      unfold train_embeddings
      rw [if_neg hnlt]
    · rintro m rfl
      unfold train_embeddings
      rw [if_neg hnlt]
    · rintro embs m rfl rfl
      unfold train_embeddings
      rw [if_neg hnlt]

/-- A four-node and a five-node engine over store-shaped graphs, and a
concrete fit outcome, witnessing that claim C7's hypotheses are
satisfiable in both directions of the gate. -/
theorem C7_train_gate_witness :
    (train_embeddings (Except.ok [(NodeId.meal 0, [(1 : Rat)])]) none 128 200
        { graph := { nodes := [(NodeId.meal 0, { node_type := some "Meal" }),
            (NodeId.ingredient "a", { node_type := some "Ingredient" }),
            (NodeId.ingredient "b", { node_type := some "Ingredient" }),
            (NodeId.nutrient "c", { node_type := some "Nutrient" })] } }).2 =
      TrainResult.skipped "Not enough nodes" 4 ∧
    (train_embeddings (Except.ok [(NodeId.meal 0, [(1 : Rat)])]) none 128 200
        { graph := { nodes := [(NodeId.meal 0, { node_type := some "Meal" }),
            (NodeId.ingredient "a", { node_type := some "Ingredient" }),
            (NodeId.ingredient "b", { node_type := some "Ingredient" }),
            (NodeId.nutrient "c", { node_type := some "Nutrient" }),
            (NodeId.symptom "d", { node_type := some "Symptom" })] } }).2 =
      TrainResult.success 1 128 1000 ∧
    (train_embeddings (Except.ok [(NodeId.meal 0, [(1 : Rat)])]) none 128 200
        { graph := { nodes := [(NodeId.meal 0, { node_type := some "Meal" }),
            (NodeId.ingredient "a", { node_type := some "Ingredient" }),
            (NodeId.ingredient "b", { node_type := some "Ingredient" }),
            (NodeId.nutrient "c", { node_type := some "Nutrient" }),
            (NodeId.symptom "d", { node_type := some "Symptom" })] } }).1.is_trained
      = true := by
  refine ⟨?_, ?_, ?_⟩
  · have h := (C7_train_gate (Except.ok [(NodeId.meal 0, [(1 : Rat)])]) none 128 200
      { graph := { nodes := [(NodeId.meal 0, { node_type := some "Meal" }),
          (NodeId.ingredient "a", { node_type := some "Ingredient" }),
          (NodeId.ingredient "b", { node_type := some "Ingredient" }),
          (NodeId.nutrient "c", { node_type := some "Nutrient" })] } }).1
      (by decide)
    rw [h]; rfl
  · have h := ((C7_train_gate (Except.ok [(NodeId.meal 0, [(1 : Rat)])]) none 128 200
      { graph := { nodes := [(NodeId.meal 0, { node_type := some "Meal" }),
          (NodeId.ingredient "a", { node_type := some "Ingredient" }),
          (NodeId.ingredient "b", { node_type := some "Ingredient" }),
          (NodeId.nutrient "c", { node_type := some "Nutrient" }),
          (NodeId.symptom "d", { node_type := some "Symptom" })] } }).2
      (by decide)).1 _ rfl rfl
    rw [h]; rfl
  · have h := ((C7_train_gate (Except.ok [(NodeId.meal 0, [(1 : Rat)])]) none 128 200
      { graph := { nodes := [(NodeId.meal 0, { node_type := some "Meal" }),
          (NodeId.ingredient "a", { node_type := some "Ingredient" }),
          (NodeId.ingredient "b", { node_type := some "Ingredient" }),
          (NodeId.nutrient "c", { node_type := some "Nutrient" }),
          (NodeId.symptom "d", { node_type := some "Symptom" })] } }).2
      (by decide)).1 _ rfl rfl
    rw [h]

theorem nodeDataD_type_none (g : Graph)
    (h : ∀ p ∈ g.nodes, p.2.type = none) (i : NodeId) :
    (g.nodeDataD i).type = none := by
  unfold Graph.nodeDataD Graph.lookupNode
  cases hf : g.nodes.find? fun p => decide (p.1 = i) with
  | none => rfl
  | some p => exact h p (List.mem_of_find?_eq_some hf)

/-- The store state of claim C4's failing input: one meal containing one
ingredient, built by `add_meal`. -/
def c4Store : NutriState :=
  (add_meal (TS.valid 0) {} ["avocado"] [] (some (TS.valid 43200)) none).1

/-- The engine of claim C4's failing input: trained, with embeddings for
the meal and the ingredient node of `c4Store`. -/
def c4Engine : EngineState :=
  { graph := c4Store.graph,
    embeddings := [(NodeId.meal 0, [(1 : Rat)]),
      (NodeId.ingredient "avocado", [(1 : Rat)])],
    is_trained := true }

/-- Claim C4 fails on the code: whenever a (truthy) node-type filter is
supplied and — as for every node the store ever creates — no node of the
engine's graph carries the attribute key `"type"` (the store tags nodes
under `"node_type"`), `get_similar_nodes` returns the empty list.  In
particular, on a trained engine over a one-meal store graph whose
`ingredient_avocado` node is tagged `node_type = "Ingredient"` and has
an embedding, the filtered query returns `[]` while the same query
without the filter returns that ingredient — contradicting the claim
that the filtered result is non-empty. -/
theorem C4_type_filter_empty :
    (∀ (sim : Vec → Vec → Rat) (es : EngineState) (node_id : NodeId)
        (top_k : Nat) (t : String), ¬ t = "" →
      (∀ p ∈ es.graph.nodes, p.2.type = none) →
      get_similar_nodes sim es node_id top_k (some t) = []) ∧
    (c4Engine.graph.nodeDataD (NodeId.ingredient "avocado")).node_type =
      some "Ingredient" ∧
    lookupEmb c4Engine.embeddings (NodeId.ingredient "avocado") =
      some [(1 : Rat)] ∧
    c4Engine.is_trained = true ∧
    get_similar_nodes (fun _ _ => 1) c4Engine (NodeId.meal 0) 5
      (some "Ingredient") = [] ∧
    get_similar_nodes (fun _ _ => 1) c4Engine (NodeId.meal 0) 5 none =
      [(NodeId.ingredient "avocado", 1)] := by
  refine ⟨?_, by decide, by decide, by decide, by decide, by decide⟩
  intro sim es node_id top_k t ht hnone
  unfold get_similar_nodes
  by_cases hT : es.is_trained = true
  · rw [if_neg (by simp [hT])]
    cases hemb : lookupEmb es.embeddings node_id with
    | none => rfl
    | some target =>
      have hfm : (es.embeddings.filterMap fun p =>
          if p.1 = node_id then none
          else if filterActive (some t) ∧
              ¬ ((es.graph.nodeDataD p.1).type = some t) then none
          else some (p.1, sim target p.2)) = [] := by
        rw [List.filterMap_eq_nil_iff]
        intro p hp
        by_cases hpid : p.1 = node_id
        · simp [hpid]
        · have htype : (es.graph.nodeDataD p.1).type = none :=
            nodeDataD_type_none _ hnone _
          simp [hpid, filterActive, ht, htype]
      simp only [hfm]
      simp [sortByDesc]
  · rw [if_pos (by simpa using hT)]

/-- Concrete instantiation of claim C4's universal part: the engine of
the failing input satisfies both hypotheses, and the filtered query on
it is empty. -/
theorem C4_type_filter_empty_witness :
    (¬ "Ingredient" = "" ∧ ∀ p ∈ c4Engine.graph.nodes, p.2.type = none) ∧
    get_similar_nodes (fun _ _ => 1) c4Engine (NodeId.meal 0) 5
      (some "Ingredient") = [] :=
  ⟨⟨by decide, by decide⟩,
    C4_type_filter_empty.1 (fun _ _ => 1) c4Engine (NodeId.meal 0) 5
      "Ingredient" (by decide) (by decide)⟩

/-- Claim C8: for a symptom text whose normalized key matches no Symptom
node of a well-formed graph, the id `symptom_{key}` is absent from the
graph, so `query_ingredients_for_symptom` returns `[]`,
`get_symptom_frequency` returns `0`, and `get_co_occurring_symptoms`
returns `[]` without raising (`some []`: the raising path is never
reached). -/
theorem C8_unknown_symptom_queries (g : Graph) (s : String)
    (hwf : GraphWF g)
    (h : ∀ p ∈ g.nodes, p.2.node_type = some "Symptom" →
      p.1 ≠ NodeId.symptom (normKey s)) :
    query_ingredients_for_symptom g s = [] ∧
    get_symptom_frequency g s = 0 ∧
    get_co_occurring_symptoms g s = some [] := by
  have hnot : ¬ g.HasNode (NodeId.symptom (normKey s)) := by
    intro hn
    rcases (hasNode_iff g _).mp hn with ⟨d, hd⟩
    have hok := hwf.2.2.1 (NodeId.symptom (normKey s), d) hd
    simp only [nodeAttrOkB, Bool.and_eq_true, decide_eq_true_eq] at hok
    exact h _ hd hok.1 rfl
  refine ⟨?_, ?_, ?_⟩
  · simp [query_ingredients_for_symptom, hnot]
  · simp [get_symptom_frequency, hnot]
  · simp [get_co_occurring_symptoms, hnot]

/-- A store holding one logged symptom, for claim C8's witness. -/
def c8Store : NutriState :=
  match add_user_log (TS.valid 0) {} "Bloated" "negative"
      (some (TS.valid 3600)) 3 with
  | Except.ok (st, _) => st
  | Except.error st => st

/-- Concrete instantiation of claim C8: a store with a logged "Bloated"
symptom is well-formed, "Headache" matches no Symptom node in it, and
all three read queries return empty results. -/
theorem C8_unknown_symptom_queries_witness :
    (GraphWF c8Store.graph ∧
      ∀ p ∈ c8Store.graph.nodes, p.2.node_type = some "Symptom" →
        p.1 ≠ NodeId.symptom (normKey "Headache")) ∧
    query_ingredients_for_symptom c8Store.graph "Headache" = [] ∧
    get_symptom_frequency c8Store.graph "Headache" = 0 ∧
    get_co_occurring_symptoms c8Store.graph "Headache" = some [] :=
  ⟨⟨by decide, by decide⟩,
    C8_unknown_symptom_queries c8Store.graph "Headache" (by decide) (by decide)⟩

theorem lookupNode_eq_none (g : Graph) (i : NodeId) (h : ¬ g.HasNode i) :
    g.lookupNode i = none := by
  have h1 : (g.nodes.find? fun p => decide (p.1 = i)) = none := by
    rw [List.find?_eq_none]
    intro p hp
    simp only [decide_eq_true_eq]
    intro he
    exact h (List.mem_map.mpr ⟨p, hp, he⟩)
  unfold Graph.lookupNode
  rw [h1]
  rfl

theorem lookupNode_addNode_fresh (g : Graph) (i : NodeId) (d : NodeData)
    (h : ¬ g.HasNode i) : (g.addNode i d).lookupNode i = some d := by
  unfold Graph.addNode
  rw [if_neg h]
  show Graph.lookupNode { g with nodes := g.nodes ++ [(i, d)] } i = some d
  unfold Graph.lookupNode
  rw [List.find?_append]
  have h1 : (g.nodes.find? fun p => decide (p.1 = i)) = none := by
    rw [List.find?_eq_none]
    intro p hp
    simp only [decide_eq_true_eq]
    intro he
    exact h (List.mem_map.mpr ⟨p, hp, he⟩)
  rw [h1]
  simp [List.find?]

theorem lookupNode_addNode_fresh_other (g : Graph) (i : NodeId) (d : NodeData)
    (j : NodeId) (h : ¬ g.HasNode i) (hne : j ≠ i) :
    (g.addNode i d).lookupNode j = g.lookupNode j := by
  unfold Graph.addNode
  rw [if_neg h]
  show Graph.lookupNode { g with nodes := g.nodes ++ [(i, d)] } j = _
  unfold Graph.lookupNode
  rw [List.find?_append]
  cases hf : g.nodes.find? fun p => decide (p.1 = j) with
  | none =>
    have hne' : ¬ (i = j) := fun hc => hne hc.symm
    simp [List.find?, hne']
  | some p => simp

theorem hasNode_addNode (g : Graph) (i : NodeId) (d : NodeData) (j : NodeId) :
    (g.addNode i d).HasNode j ↔ g.HasNode j ∨ j = i := by
  unfold Graph.addNode
  by_cases h : g.HasNode i
  · rw [if_pos h]
    have hkeys : (List.map (fun p => if p.1 = i then (i, p.2.merge d) else p)
        g.nodes).map Prod.fst = g.nodes.map Prod.fst := by
      rw [List.map_map]
      apply List.map_congr_left
      intro p _
      by_cases hp : p.1 = i
      · simp [hp]
      · simp [hp]
    show j ∈ Graph.nodeIds _ ↔ _
    unfold Graph.nodeIds
    rw [show ({ g with nodes := List.map (fun p => if p.1 = i then
      (i, p.2.merge d) else p) g.nodes } : Graph).nodes = List.map
      (fun p => if p.1 = i then (i, p.2.merge d) else p) g.nodes from rfl, hkeys]
    constructor
    · exact fun hj => Or.inl hj
    · rintro (hj | rfl)
      · exact hj
      · exact h
  · rw [if_neg h]
    show j ∈ Graph.nodeIds _ ↔ _
    unfold Graph.nodeIds Graph.HasNode Graph.nodeIds
    simp

theorem log_counter_fresh (st : NutriState) (hwf : StateWF st) :
    ¬ st.graph.HasNode (NodeId.log st.log_counter) := by
  intro h
  have := hwf.2 _ h
  simp [counterOkB] at this

theorem meal_counter_fresh (st : NutriState) (hwf : StateWF st) :
    ¬ st.graph.HasNode (NodeId.meal st.meal_counter) := by
  intro h
  have := hwf.2 _ h
  simp [counterOkB] at this

theorem no_edge_to_fresh (st : NutriState) (hwf : StateWF st) (i : NodeId)
    (h : ¬ st.graph.HasNode i) :
    ∀ e ∈ st.graph.edges, ¬ (e.src = i ∨ e.tgt = i) := by
  intro e he
  rintro (hc | hc)
  · exact h (hc ▸ (hwf.1.2.2.2.2 e he).1)
  · exact h (hc ▸ (hwf.1.2.2.2.2 e he).2)

theorem lookupNode_congr (g g' : Graph) (i : NodeId) (h : g.nodes = g'.nodes) :
    g.lookupNode i = g'.lookupNode i := by
  unfold Graph.lookupNode
  rw [h]

theorem hasNode_congr (g g' : Graph) (i : NodeId) (h : g.nodes = g'.nodes) :
    g.HasNode i ↔ g'.HasNode i := by
  unfold Graph.HasNode Graph.nodeIds
  rw [h]


theorem add_user_log_pre_counters (st : NutriState) (s sent : String)
    (ts : TS) :
    (add_user_log_pre st s sent ts).log_counter = st.log_counter + 1 ∧
    (add_user_log_pre st s sent ts).meal_counter = st.meal_counter :=
  ⟨rfl, rfl⟩

theorem add_user_log_pre_graph_pos (st : NutriState) (s sent : String)
    (ts : TS) (hsym : (st.graph.addNode (NodeId.log st.log_counter)
      (userLogData s sent ts)).HasNode (NodeId.symptom (normKey s))) :
    (add_user_log_pre st s sent ts).graph =
      (st.graph.addNode (NodeId.log st.log_counter)
        (userLogData s sent ts)).addEdge (NodeId.log st.log_counter)
        (NodeId.symptom (normKey s)) "EXPERIENCED" "experienced" := by
  unfold add_user_log_pre
  simp only [if_pos hsym]

theorem add_user_log_pre_graph_neg (st : NutriState) (s sent : String)
    (ts : TS) (hsym : ¬ (st.graph.addNode (NodeId.log st.log_counter)
      (userLogData s sent ts)).HasNode (NodeId.symptom (normKey s))) :
    (add_user_log_pre st s sent ts).graph =
      ((st.graph.addNode (NodeId.log st.log_counter)
        (userLogData s sent ts)).addNode (NodeId.symptom (normKey s))
        (symptomData s)).addEdge (NodeId.log st.log_counter)
        (NodeId.symptom (normKey s)) "EXPERIENCED" "experienced" := by
  unfold add_user_log_pre
  simp only [if_neg hsym]

theorem add_user_log_pre_spec (st : NutriState) (s sent : String) (ts : TS)
    (hwf : StateWF st) :
    (add_user_log_pre st s sent ts).graph.edges = st.graph.edges ++
      [⟨NodeId.log st.log_counter, NodeId.symptom (normKey s),
        "EXPERIENCED", "experienced"⟩] ∧
    (add_user_log_pre st s sent ts).graph.lookupNode
        (NodeId.log st.log_counter) = some (userLogData s sent ts) ∧
    (add_user_log_pre st s sent ts).graph.HasNode
      (NodeId.symptom (normKey s)) ∧
    (add_user_log_pre st s sent ts).graph.nodes.length =
      st.graph.nodes.length +
        (if st.graph.HasNode (NodeId.symptom (normKey s)) then 1 else 2) ∧
    (add_user_log_pre st s sent ts).log_counter = st.log_counter + 1 ∧
    (add_user_log_pre st s sent ts).meal_counter = st.meal_counter := by
  have hlfresh := log_counter_fresh st hwf
  have hnoedge := no_edge_to_fresh st hwf _ hlfresh
  have hg1has_l : (st.graph.addNode (NodeId.log st.log_counter)
      (userLogData s sent ts)).HasNode (NodeId.log st.log_counter) :=
    (hasNode_addNode _ _ _ _).mpr (Or.inr rfl)
  by_cases hsym : st.graph.HasNode (NodeId.symptom (normKey s))
  · have hg1has : (st.graph.addNode (NodeId.log st.log_counter)
        (userLogData s sent ts)).HasNode (NodeId.symptom (normKey s)) :=
      (hasNode_addNode _ _ _ _).mpr (Or.inl hsym)
    have hpreg := add_user_log_pre_graph_pos st s sent ts hg1has
    have hnodes1 : (st.graph.addNode (NodeId.log st.log_counter)
        (userLogData s sent ts)).nodes = st.graph.nodes ++
        [(NodeId.log st.log_counter, userLogData s sent ts)] :=
      addNode_fresh _ _ _ hlfresh
    have hedges1 : (st.graph.addNode (NodeId.log st.log_counter)
        (userLogData s sent ts)).edges = st.graph.edges := addNode_edges _ _ _
    have hnodes3 : (add_user_log_pre st s sent ts).graph.nodes =
        st.graph.nodes ++ [(NodeId.log st.log_counter,
          userLogData s sent ts)] := by
      rw [hpreg, addEdge_nodes_of_hasNodes _ _ _ _ _ hg1has_l hg1has, hnodes1]
    refine ⟨?_, ?_, ?_, ?_, (add_user_log_pre_counters st s sent ts).1,
      (add_user_log_pre_counters st s sent ts).2⟩
    · rw [hpreg, addEdge_edges_of_fresh, hedges1]
      intro e he
      rw [hedges1] at he
      rintro ⟨hs', -⟩
      exact hnoedge e he (Or.inl hs')
    · rw [lookupNode_congr (add_user_log_pre st s sent ts).graph
        (st.graph.addNode (NodeId.log st.log_counter)
          (userLogData s sent ts)) (NodeId.log st.log_counter)
        (by rw [hnodes3, hnodes1])]
      exact lookupNode_addNode_fresh st.graph (NodeId.log st.log_counter)
        (userLogData s sent ts) hlfresh
    · rw [hasNode_congr _ (st.graph.addNode (NodeId.log st.log_counter)
        (userLogData s sent ts)) _ (by rw [hnodes3, hnodes1])]
      exact hg1has
    · rw [hnodes3, List.length_append, if_pos hsym]
      rfl
  · have hg1not : ¬ (st.graph.addNode (NodeId.log st.log_counter)
        (userLogData s sent ts)).HasNode (NodeId.symptom (normKey s)) := by
      intro hc
      rcases (hasNode_addNode _ _ _ _).mp hc with hc | hc
      · exact hsym hc
      · cases hc
    have hpreg := add_user_log_pre_graph_neg st s sent ts hg1not
    have hnodes1 : (st.graph.addNode (NodeId.log st.log_counter)
        (userLogData s sent ts)).nodes = st.graph.nodes ++
        [(NodeId.log st.log_counter, userLogData s sent ts)] :=
      addNode_fresh _ _ _ hlfresh
    have hnodes2 : ((st.graph.addNode (NodeId.log st.log_counter)
        (userLogData s sent ts)).addNode (NodeId.symptom (normKey s))
        (symptomData s)).nodes = (st.graph.nodes ++
          [(NodeId.log st.log_counter, userLogData s sent ts)]) ++
          [(NodeId.symptom (normKey s), symptomData s)] := by
      rw [addNode_fresh _ _ _ hg1not, hnodes1]
    have hg2has_s : ((st.graph.addNode (NodeId.log st.log_counter)
        (userLogData s sent ts)).addNode (NodeId.symptom (normKey s))
        (symptomData s)).HasNode (NodeId.symptom (normKey s)) :=
      (hasNode_addNode _ _ _ _).mpr (Or.inr rfl)
    have hg2has_l : ((st.graph.addNode (NodeId.log st.log_counter)
        (userLogData s sent ts)).addNode (NodeId.symptom (normKey s))
        (symptomData s)).HasNode (NodeId.log st.log_counter) :=
      (hasNode_addNode _ _ _ _).mpr (Or.inl hg1has_l)
    have hedges2 : ((st.graph.addNode (NodeId.log st.log_counter)
        (userLogData s sent ts)).addNode (NodeId.symptom (normKey s))
        (symptomData s)).edges = st.graph.edges := by
      rw [addNode_edges, addNode_edges]
    have hnodes3 : (add_user_log_pre st s sent ts).graph.nodes =
        (st.graph.nodes ++ [(NodeId.log st.log_counter,
          userLogData s sent ts)]) ++
          [(NodeId.symptom (normKey s), symptomData s)] := by
      rw [hpreg, addEdge_nodes_of_hasNodes _ _ _ _ _ hg2has_l hg2has_s, hnodes2]
    refine ⟨?_, ?_, ?_, ?_, (add_user_log_pre_counters st s sent ts).1,
      (add_user_log_pre_counters st s sent ts).2⟩
    · rw [hpreg, addEdge_edges_of_fresh, hedges2]
      intro e he
      rw [hedges2] at he
      rintro ⟨hs', -⟩
      exact hnoedge e he (Or.inl hs')
    · rw [lookupNode_congr (add_user_log_pre st s sent ts).graph
        ((st.graph.addNode (NodeId.log st.log_counter)
          (userLogData s sent ts)).addNode (NodeId.symptom (normKey s))
          (symptomData s)) (NodeId.log st.log_counter)
        (by rw [hnodes3, hnodes2])]
      rw [lookupNode_addNode_fresh_other
        (st.graph.addNode (NodeId.log st.log_counter) (userLogData s sent ts))
        (NodeId.symptom (normKey s)) (symptomData s)
        (NodeId.log st.log_counter) hg1not (by intro hc; cases hc)]
      exact lookupNode_addNode_fresh st.graph (NodeId.log st.log_counter)
        (userLogData s sent ts) hlfresh
    · rw [hasNode_congr _ ((st.graph.addNode (NodeId.log st.log_counter)
        (userLogData s sent ts)).addNode (NodeId.symptom (normKey s))
        (symptomData s)) _ (by rw [hnodes3, hnodes2])]
      exact hg2has_s
    · rw [hnodes3, List.length_append, List.length_append, if_neg hsym]
      rfl

/-- Claim C10: `add_user_log` with an unparseable timestamp string
raises out of `fromisoformat` only *after* the UserLog node, the
(possibly newly created) Symptom node and the `EXPERIENCED` edge have
been added — the error carries exactly the mutated state
`add_user_log_pre`, in which the new UserLog is present, the Symptom
node is present, the `EXPERIENCED` edge is present, and `get_stats`
edge and node counts have grown (by one edge, and by one node or two
depending on whether the Symptom already existed). -/
theorem C10_invalid_timestamp_mutates (now : TS) (st : NutriState)
    (s sent raw : String) (w : Int) (hwf : StateWF st) :
    add_user_log now st s sent (some (TS.invalid raw)) w =
      Except.error (add_user_log_pre st s sent (TS.invalid raw)) ∧
    (add_user_log_pre st s sent (TS.invalid raw)).graph.lookupNode
        (NodeId.log st.log_counter) =
      some (userLogData s sent (TS.invalid raw)) ∧
    (add_user_log_pre st s sent (TS.invalid raw)).graph.HasNode
      (NodeId.symptom (normKey s)) ∧
    (⟨NodeId.log st.log_counter, NodeId.symptom (normKey s), "EXPERIENCED",
      "experienced"⟩ : Edge) ∈
      (add_user_log_pre st s sent (TS.invalid raw)).graph.edges ∧
    (get_stats
        (add_user_log_pre st s sent (TS.invalid raw)).graph).total_edges =
      (get_stats st.graph).total_edges + 1 ∧
    (get_stats
        (add_user_log_pre st s sent (TS.invalid raw)).graph).total_nodes =
      (get_stats st.graph).total_nodes +
        (if st.graph.HasNode (NodeId.symptom (normKey s)) then 1 else 2) := by
  obtain ⟨he, hl, hs, hlen, -, -⟩ :=
    add_user_log_pre_spec st s sent (TS.invalid raw) hwf
  refine ⟨rfl, hl, hs, ?_, ?_, ?_⟩
  · rw [he]
    exact List.mem_append_right _ (by simp)
  · simp only [get_stats]
    rw [he, List.length_append]
    rfl
  · simp only [get_stats]
    exact hlen

/-- A store holding one meal, for claim C10's witness. -/
def c10Store : NutriState :=
  (add_meal (TS.valid 0) {} ["rice"] [] (some (TS.valid 1000)) none).1

/-- Concrete instantiation of claim C10: the one-meal store is
well-formed, and logging with the unparseable timestamp string
"not-a-date" returns the error carrying the mutated state. -/
theorem C10_invalid_timestamp_mutates_witness :
    StateWF c10Store ∧
    add_user_log (TS.valid 0) c10Store "Bloated" "negative"
      (some (TS.invalid "not-a-date")) 3 =
      Except.error (add_user_log_pre c10Store "Bloated" "negative"
        (TS.invalid "not-a-date")) :=
  ⟨by decide, (C10_invalid_timestamp_mutates (TS.valid 0) c10Store "Bloated"
    "negative" "not-a-date" 3 (by decide)).1⟩

/-- Number of node-dictionary entries carrying a given id. -/
def Graph.countId (g : Graph) (i : NodeId) : Nat :=
  (g.nodes.filter fun p => decide (p.1 = i)).length

theorem hasNode_of_mem (g : Graph) (i : NodeId) (d : NodeData)
    (h : (i, d) ∈ g.nodes) : g.HasNode i :=
  (hasNode_iff g i).mpr ⟨d, h⟩

theorem addEdge_nodes (g : Graph) (u v : NodeId) (t l : String) :
    (g.addEdge u v t l).nodes = ((g.ensureNode u).ensureNode v).nodes := by
  simp only [Graph.addEdge]
  split <;> rfl

theorem hasNode_ensureNode (g : Graph) (i j : NodeId) :
    (g.ensureNode i).HasNode j ↔ g.HasNode j ∨ j = i := by
  unfold Graph.ensureNode
  by_cases h : g.HasNode i
  · rw [if_pos h]
    constructor
    · exact Or.inl
    · rintro (hj | rfl)
      · exact hj
      · exact h
  · rw [if_neg h]
    show j ∈ Graph.nodeIds _ ↔ _
    unfold Graph.HasNode Graph.nodeIds
    simp

theorem hasNode_addEdge (g : Graph) (u v : NodeId) (t l : String)
    (j : NodeId) :
    (g.addEdge u v t l).HasNode j ↔ g.HasNode j ∨ j = u ∨ j = v := by
  rw [hasNode_congr _ ((g.ensureNode u).ensureNode v) j (addEdge_nodes g u v t l),
    hasNode_ensureNode, hasNode_ensureNode]
  tauto

theorem countId_congr (g g' : Graph) (i : NodeId) (h : g.nodes = g'.nodes) :
    g.countId i = g'.countId i := by
  unfold Graph.countId
  rw [h]

theorem countId_append (n1 n2 : List (NodeId × NodeData)) (i : NodeId) :
    Graph.countId ⟨n1 ++ n2, []⟩ i =
      Graph.countId ⟨n1, []⟩ i + Graph.countId ⟨n2, []⟩ i := by
  unfold Graph.countId
  rw [List.filter_append, List.length_append]

theorem countId_eq_zero (g : Graph) (i : NodeId) (h : ¬ g.HasNode i) :
    g.countId i = 0 := by
  unfold Graph.countId
  rw [List.length_eq_zero]
  rw [List.filter_eq_nil_iff]
  intro p hp
  simp only [decide_eq_true_eq]
  intro he
  exact h (hasNode_of_mem g i p.2 (by rwa [show (i, p.2) = p from Prod.ext he.symm rfl]))

theorem countType_congr (g g' : Graph) (t : String) (h : g.nodes = g'.nodes) :
    g.countType t = g'.countType t := by
  unfold Graph.countType
  rw [h]

theorem countType_append (n1 n2 : List (NodeId × NodeData)) (t : String) :
    Graph.countType ⟨n1 ++ n2, []⟩ t =
      Graph.countType ⟨n1, []⟩ t + Graph.countType ⟨n2, []⟩ t := by
  unfold Graph.countType
  rw [List.filter_append, List.length_append]

theorem add_meal_eval (now : TS) (st : NutriState) (ings : List String)
    (nj : List (String × List String)) (ts : Option TS)
    (pu : Option String) :
    (add_meal now st ings nj ts pu).1 =
      { st with
        graph := ings.foldl
          (addMealIngredientStep nj (NodeId.meal st.meal_counter))
          (st.graph.addNode (NodeId.meal st.meal_counter)
            (mealData (ts.getD now) pu (st.meal_counter + 1))),
        meal_counter := st.meal_counter + 1 } := by
  unfold add_meal
  rfl

theorem addMealIngredientStep_nil_eval (mid : NodeId) (g : Graph)
    (b : String) :
    addMealIngredientStep [] mid g b =
      (if g.HasNode (NodeId.ingredient (normKey b)) then g
        else g.addNode (NodeId.ingredient (normKey b)) (ingredientData b)).addEdge
        mid (NodeId.ingredient (normKey b)) "CONTAINS" "contains" := rfl

theorem addMealIngredientStep_one_eval (mid : NodeId) (g : Graph)
    (x b : String) :
    addMealIngredientStep [(x, [b])] mid g x =
      addMealNutrientStep (NodeId.ingredient (normKey x))
        ((if g.HasNode (NodeId.ingredient (normKey x)) then g
          else g.addNode (NodeId.ingredient (normKey x))
            (ingredientData x)).addEdge mid (NodeId.ingredient (normKey x))
          "CONTAINS" "contains") b := by
  have hlk : lookupListD [(x, [b])] x = [b] := by simp [lookupListD]
  simp only [addMealIngredientStep, hlk]
  rfl

theorem addMealNutrientStep_nodes_present (ing_id : NodeId) (g : Graph)
    (b : String) (hing : g.HasNode ing_id)
    (hnut : g.HasNode (NodeId.nutrient (normKey b))) :
    (addMealNutrientStep ing_id g b).nodes = g.nodes := by
  simp only [addMealNutrientStep, if_pos hnut]
  split
  · rfl
  · rw [addEdge_nodes_of_hasNodes _ _ _ _ _ hing hnut]

theorem addMealNutrientStep_nodes_absent (ing_id : NodeId) (g : Graph)
    (b : String) (hing : g.HasNode ing_id)
    (hnut : ¬ g.HasNode (NodeId.nutrient (normKey b))) :
    (addMealNutrientStep ing_id g b).nodes =
      g.nodes ++ [(NodeId.nutrient (normKey b), nutrientData b)] := by
  simp only [addMealNutrientStep, if_neg hnut]
  have hfresh := addNode_fresh g (NodeId.nutrient (normKey b)) (nutrientData b) hnut
  have hing' : (g.addNode (NodeId.nutrient (normKey b))
      (nutrientData b)).HasNode ing_id :=
    (hasNode_addNode _ _ _ _).mpr (Or.inl hing)
  have hnut' : (g.addNode (NodeId.nutrient (normKey b))
      (nutrientData b)).HasNode (NodeId.nutrient (normKey b)) :=
    (hasNode_addNode _ _ _ _).mpr (Or.inr rfl)
  split
  · exact hfresh
  · rw [addEdge_nodes_of_hasNodes _ _ _ _ _ hing' hnut', hfresh]

theorem scanMeals_nodes (T W : Int) (L : NodeId) :
    ∀ (nodes : List (NodeId × NodeData)) (g g' : Graph),
      g.HasNode L → (∀ p ∈ nodes, g.HasNode p.1) →
      (scanMeals T W L nodes g = Except.ok g' ∨
        scanMeals T W L nodes g = Except.error g') →
      g'.nodes = g.nodes := by
  intro nodes
  induction nodes with
  | nil =>
    intro g g' _ _ h
    rcases h with h | h
    · cases h
      rfl
    · cases h
  | cons p rest ih =>
    intro g g' hL hall h
    have hstep : ∀ g2 : Graph, g2.nodes = g.nodes →
        (scanMeals T W L rest g2 = Except.ok g' ∨
          scanMeals T W L rest g2 = Except.error g') → g'.nodes = g.nodes := by
      intro g2 hg2 hrec
      have hL2 : g2.HasNode L := (hasNode_congr g2 g L hg2).mpr hL
      have hall2 : ∀ q ∈ rest, g2.HasNode q.1 := fun q hq =>
        (hasNode_congr g2 g q.1 hg2).mpr (hall q (List.mem_cons_of_mem p hq))
      rw [ih g2 g' hL2 hall2 hrec]
      exact hg2
    have hp1 : g.HasNode p.1 := hall p (List.mem_cons_self p rest)
    by_cases hm : p.2.node_type = some "Meal"
    · simp only [scanMeals, if_pos hm] at h
      cases hts : p.2.timestamp with
      | none =>
        simp only [hts] at h
        exact hstep g rfl h
      | some ts =>
        simp only [hts] at h
        by_cases hfal : ts.isFalsy = true
        · rw [if_pos hfal] at h
          exact hstep g rfl h
        · rw [if_neg hfal] at h
          cases hpar : ts.parse with
          | none =>
            simp only [hpar] at h
            rcases h with h | h
            · cases h
            · cases h
              rfl
          | some mt =>
            simp only [hpar] at h
            by_cases hcond : 0 < T - mt ∧ T - mt ≤ W
            · rw [if_pos hcond] at h
              exact hstep _ (addEdge_nodes_of_hasNodes _ _ _ _ _ hp1 hL) h
            · rw [if_neg hcond] at h
              exact hstep g rfl h
    · simp only [scanMeals, if_neg hm] at h
      exact hstep g rfl h

theorem hasNode_of_lookup (g : Graph) (i : NodeId) (d : NodeData)
    (h : g.lookupNode i = some d) : g.HasNode i := by
  unfold Graph.lookupNode at h
  cases hf : g.nodes.find? fun p => decide (p.1 = i) with
  | none => rw [hf] at h; cases h
  | some p =>
    have hp := List.mem_of_find?_eq_some hf
    have hkey := List.find?_some hf
    simp only [decide_eq_true_eq] at hkey
    exact hkey ▸ hasNode_of_mem g p.1 p.2 (by rwa [Prod.mk.eta])

theorem hasNode_mk_append (n1 n2 : List (NodeId × NodeData)) (j : NodeId) :
    Graph.HasNode ⟨n1 ++ n2, []⟩ j ↔
      Graph.HasNode ⟨n1, []⟩ j ∨ Graph.HasNode ⟨n2, []⟩ j := by
  unfold Graph.HasNode Graph.nodeIds
  simp

theorem add_meal_graph (now : TS) (st : NutriState) (ings : List String)
    (nj : List (String × List String)) (ts : Option TS)
    (pu : Option String) :
    (add_meal now st ings nj ts pu).1.graph =
      ings.foldl (addMealIngredientStep nj (NodeId.meal st.meal_counter))
        (st.graph.addNode (NodeId.meal st.meal_counter)
          (mealData (ts.getD now) pu (st.meal_counter + 1))) := by
  rw [add_meal_eval]

theorem add_meal_counters (now : TS) (st : NutriState) (ings : List String)
    (nj : List (String × List String)) (ts : Option TS)
    (pu : Option String) :
    (add_meal now st ings nj ts pu).1.meal_counter = st.meal_counter + 1 ∧
    (add_meal now st ings nj ts pu).1.log_counter = st.log_counter := by
  rw [add_meal_eval]
  exact ⟨rfl, rfl⟩

theorem add_meal_single_nodes (now : TS) (st : NutriState) (b : String)
    (ts : Option TS) (pu : Option String) (hwf : StateWF st) :
    (add_meal now st [b] [] ts pu).1.graph.nodes =
      (st.graph.nodes ++ [(NodeId.meal st.meal_counter,
        mealData (ts.getD now) pu (st.meal_counter + 1))]) ++
      (if st.graph.HasNode (NodeId.ingredient (normKey b)) then []
        else [(NodeId.ingredient (normKey b), ingredientData b)]) := by
  have hmfresh := meal_counter_fresh st hwf
  have h0 : (st.graph.addNode (NodeId.meal st.meal_counter)
      (mealData (ts.getD now) pu (st.meal_counter + 1))).nodes =
      st.graph.nodes ++ [(NodeId.meal st.meal_counter,
        mealData (ts.getD now) pu (st.meal_counter + 1))] :=
    addNode_fresh _ _ _ hmfresh
  have hmeal0 : (st.graph.addNode (NodeId.meal st.meal_counter)
      (mealData (ts.getD now) pu (st.meal_counter + 1))).HasNode
      (NodeId.meal st.meal_counter) :=
    (hasNode_addNode _ _ _ _).mpr (Or.inr rfl)
  rw [add_meal_graph]
  rw [show ([b].foldl (addMealIngredientStep [] (NodeId.meal st.meal_counter))
    (st.graph.addNode (NodeId.meal st.meal_counter)
      (mealData (ts.getD now) pu (st.meal_counter + 1)))) =
    addMealIngredientStep [] (NodeId.meal st.meal_counter)
      (st.graph.addNode (NodeId.meal st.meal_counter)
        (mealData (ts.getD now) pu (st.meal_counter + 1))) b from rfl]
  rw [addMealIngredientStep_nil_eval]
  by_cases hx : st.graph.HasNode (NodeId.ingredient (normKey b))
  · have hx0 : (st.graph.addNode (NodeId.meal st.meal_counter)
        (mealData (ts.getD now) pu (st.meal_counter + 1))).HasNode
        (NodeId.ingredient (normKey b)) :=
      (hasNode_addNode _ _ _ _).mpr (Or.inl hx)
    rw [if_pos hx0, addEdge_nodes_of_hasNodes _ _ _ _ _ hmeal0 hx0, h0,
      if_pos hx, List.append_nil]
  · have hx0 : ¬ (st.graph.addNode (NodeId.meal st.meal_counter)
        (mealData (ts.getD now) pu (st.meal_counter + 1))).HasNode
        (NodeId.ingredient (normKey b)) := by
      intro hc
      rcases (hasNode_addNode _ _ _ _).mp hc with hc | hc
      · exact hx hc
      · cases hc
    rw [if_neg hx0]
    have hing1 : ((st.graph.addNode (NodeId.meal st.meal_counter)
        (mealData (ts.getD now) pu (st.meal_counter + 1))).addNode
        (NodeId.ingredient (normKey b)) (ingredientData b)).HasNode
        (NodeId.ingredient (normKey b)) :=
      (hasNode_addNode _ _ _ _).mpr (Or.inr rfl)
    have hmeal1 : ((st.graph.addNode (NodeId.meal st.meal_counter)
        (mealData (ts.getD now) pu (st.meal_counter + 1))).addNode
        (NodeId.ingredient (normKey b)) (ingredientData b)).HasNode
        (NodeId.meal st.meal_counter) :=
      (hasNode_addNode _ _ _ _).mpr (Or.inl hmeal0)
    rw [addEdge_nodes_of_hasNodes _ _ _ _ _ hmeal1 hing1,
      addNode_fresh _ _ _ hx0, h0, if_neg hx]

theorem add_meal_single_dedup (now : TS) (st : NutriState) (b : String)
    (ts : Option TS) (pu : Option String) (hwf : StateWF st) :
    ((add_meal now st [b] [] ts pu).1.graph.countId
        (NodeId.ingredient (normKey b)) =
      if st.graph.HasNode (NodeId.ingredient (normKey b))
      then st.graph.countId (NodeId.ingredient (normKey b)) else 1) ∧
    ((get_stats (add_meal now st [b] [] ts pu).1.graph).ingredients =
      if st.graph.HasNode (NodeId.ingredient (normKey b))
      then (get_stats st.graph).ingredients
      else (get_stats st.graph).ingredients + 1) ∧
    (add_meal now st [b] [] ts pu).1.graph.HasNode
      (NodeId.ingredient (normKey b)) := by
  have hnodes := add_meal_single_nodes now st b ts pu hwf
  refine ⟨?_, ?_, ?_⟩
  · rw [countId_congr (add_meal now st [b] [] ts pu).1.graph
      ⟨(st.graph.nodes ++ [(NodeId.meal st.meal_counter,
        mealData (ts.getD now) pu (st.meal_counter + 1))]) ++
        (if st.graph.HasNode (NodeId.ingredient (normKey b)) then []
          else [(NodeId.ingredient (normKey b), ingredientData b)]), []⟩
      _ (by rw [hnodes])]
    rw [countId_append, countId_append]
    rw [show Graph.countId ⟨st.graph.nodes, []⟩
      (NodeId.ingredient (normKey b)) = st.graph.countId
      (NodeId.ingredient (normKey b)) from countId_congr _ _ _ rfl]
    have hmeal : Graph.countId ⟨[(NodeId.meal st.meal_counter,
        mealData (ts.getD now) pu (st.meal_counter + 1))], []⟩
        (NodeId.ingredient (normKey b)) = 0 := by
      simp [Graph.countId]
    rw [hmeal]
    by_cases hx : st.graph.HasNode (NodeId.ingredient (normKey b))
    · rw [if_pos hx, if_pos hx]
      simp [Graph.countId]
    · rw [if_neg hx, if_neg hx, countId_eq_zero st.graph _ hx]
      simp [Graph.countId]
  · simp only [get_stats]
    rw [countType_congr (add_meal now st [b] [] ts pu).1.graph
      ⟨(st.graph.nodes ++ [(NodeId.meal st.meal_counter,
        mealData (ts.getD now) pu (st.meal_counter + 1))]) ++
        (if st.graph.HasNode (NodeId.ingredient (normKey b)) then []
          else [(NodeId.ingredient (normKey b), ingredientData b)]), []⟩
      _ (by rw [hnodes])]
    rw [countType_append, countType_append]
    rw [show Graph.countType ⟨st.graph.nodes, []⟩ "Ingredient" =
      st.graph.countType "Ingredient" from countType_congr _ _ _ rfl]
    have hmeal : Graph.countType ⟨[(NodeId.meal st.meal_counter,
        mealData (ts.getD now) pu (st.meal_counter + 1))], []⟩
        "Ingredient" = 0 := by
      simp [Graph.countType, mealData]
    rw [hmeal]
    by_cases hx : st.graph.HasNode (NodeId.ingredient (normKey b))
    · rw [if_pos hx, if_pos hx]
      simp [Graph.countType]
    · rw [if_neg hx, if_neg hx]
      simp [Graph.countType, ingredientData]
  · rw [hasNode_congr (add_meal now st [b] [] ts pu).1.graph
      ⟨(st.graph.nodes ++ [(NodeId.meal st.meal_counter,
        mealData (ts.getD now) pu (st.meal_counter + 1))]) ++
        (if st.graph.HasNode (NodeId.ingredient (normKey b)) then []
          else [(NodeId.ingredient (normKey b), ingredientData b)]), []⟩
      _ (by rw [hnodes])]
    rw [hasNode_mk_append]
    by_cases hx : st.graph.HasNode (NodeId.ingredient (normKey b))
    · left
      rw [hasNode_mk_append]
      left
      show NodeId.ingredient (normKey b) ∈ st.graph.nodes.map Prod.fst
      exact hx
    · right
      rw [if_neg hx]
      show NodeId.ingredient (normKey b) ∈ _
      simp [Graph.nodeIds]

theorem step_contains_nodes (mid : NodeId) (g : Graph) (b : String)
    (hmid : g.HasNode mid) :
    ((if g.HasNode (NodeId.ingredient (normKey b)) then g
      else g.addNode (NodeId.ingredient (normKey b)) (ingredientData b)).addEdge
      mid (NodeId.ingredient (normKey b)) "CONTAINS" "contains").nodes =
    g.nodes ++ (if g.HasNode (NodeId.ingredient (normKey b)) then []
      else [(NodeId.ingredient (normKey b), ingredientData b)]) := by
  by_cases hx : g.HasNode (NodeId.ingredient (normKey b))
  · rw [if_pos hx, if_pos hx, addEdge_nodes_of_hasNodes _ _ _ _ _ hmid hx,
      List.append_nil]
  · rw [if_neg hx, if_neg hx]
    have hing1 : (g.addNode (NodeId.ingredient (normKey b))
        (ingredientData b)).HasNode (NodeId.ingredient (normKey b)) :=
      (hasNode_addNode _ _ _ _).mpr (Or.inr rfl)
    have hmid1 : (g.addNode (NodeId.ingredient (normKey b))
        (ingredientData b)).HasNode mid :=
      (hasNode_addNode _ _ _ _).mpr (Or.inl hmid)
    rw [addEdge_nodes_of_hasNodes _ _ _ _ _ hmid1 hing1,
      addNode_fresh _ _ _ hx]

theorem hasNode_of_nodes_eq (g : Graph) (n : List (NodeId × NodeData))
    (h : g.nodes = n) (j : NodeId) :
    g.HasNode j ↔ Graph.HasNode ⟨n, []⟩ j :=
  hasNode_congr g ⟨n, []⟩ j h

theorem add_meal_nutrient_nodes (now : TS) (st : NutriState) (x b : String)
    (ts : Option TS) (pu : Option String) (hwf : StateWF st) :
    (add_meal now st [x] [(x, [b])] ts pu).1.graph.nodes =
      ((st.graph.nodes ++ [(NodeId.meal st.meal_counter,
        mealData (ts.getD now) pu (st.meal_counter + 1))]) ++
        (if st.graph.HasNode (NodeId.ingredient (normKey x)) then []
          else [(NodeId.ingredient (normKey x), ingredientData x)])) ++
      (if st.graph.HasNode (NodeId.nutrient (normKey b)) then []
        else [(NodeId.nutrient (normKey b), nutrientData b)]) := by
  have hmfresh := meal_counter_fresh st hwf
  rw [add_meal_graph]
  rw [show ([x].foldl (addMealIngredientStep [(x, [b])]
    (NodeId.meal st.meal_counter)) (st.graph.addNode
      (NodeId.meal st.meal_counter)
      (mealData (ts.getD now) pu (st.meal_counter + 1)))) =
    addMealIngredientStep [(x, [b])] (NodeId.meal st.meal_counter)
      (st.graph.addNode (NodeId.meal st.meal_counter)
        (mealData (ts.getD now) pu (st.meal_counter + 1))) x from rfl]
  rw [addMealIngredientStep_one_eval]
  have h0 : (st.graph.addNode (NodeId.meal st.meal_counter)
      (mealData (ts.getD now) pu (st.meal_counter + 1))).nodes =
      st.graph.nodes ++ [(NodeId.meal st.meal_counter,
        mealData (ts.getD now) pu (st.meal_counter + 1))] :=
    addNode_fresh _ _ _ hmfresh
  have hmeal0 : (st.graph.addNode (NodeId.meal st.meal_counter)
      (mealData (ts.getD now) pu (st.meal_counter + 1))).HasNode
      (NodeId.meal st.meal_counter) :=
    (hasNode_addNode _ _ _ _).mpr (Or.inr rfl)
  have hxiff : (st.graph.addNode (NodeId.meal st.meal_counter)
      (mealData (ts.getD now) pu (st.meal_counter + 1))).HasNode
      (NodeId.ingredient (normKey x)) ↔
      st.graph.HasNode (NodeId.ingredient (normKey x)) := by
    rw [hasNode_addNode]
    constructor
    · rintro (h | h)
      · exact h
      · cases h
    · exact Or.inl
  have hG2 := step_contains_nodes (NodeId.meal st.meal_counter)
    (st.graph.addNode (NodeId.meal st.meal_counter)
      (mealData (ts.getD now) pu (st.meal_counter + 1))) x hmeal0
  rw [h0] at hG2
  have hG2' : ((if (st.graph.addNode (NodeId.meal st.meal_counter)
      (mealData (ts.getD now) pu (st.meal_counter + 1))).HasNode
        (NodeId.ingredient (normKey x))
      then st.graph.addNode (NodeId.meal st.meal_counter)
        (mealData (ts.getD now) pu (st.meal_counter + 1))
      else (st.graph.addNode (NodeId.meal st.meal_counter)
        (mealData (ts.getD now) pu (st.meal_counter + 1))).addNode
        (NodeId.ingredient (normKey x)) (ingredientData x)).addEdge
      (NodeId.meal st.meal_counter) (NodeId.ingredient (normKey x))
      "CONTAINS" "contains").nodes =
      (st.graph.nodes ++ [(NodeId.meal st.meal_counter,
        mealData (ts.getD now) pu (st.meal_counter + 1))]) ++
      (if st.graph.HasNode (NodeId.ingredient (normKey x)) then []
        else [(NodeId.ingredient (normKey x), ingredientData x)]) := by
    rw [hG2]
    by_cases hx : st.graph.HasNode (NodeId.ingredient (normKey x))
    · rw [if_pos (hxiff.mpr hx), if_pos hx]
    · rw [if_neg (fun hc => hx (hxiff.mp hc)), if_neg hx]
  have hG2ing : ((if (st.graph.addNode (NodeId.meal st.meal_counter)
      (mealData (ts.getD now) pu (st.meal_counter + 1))).HasNode
        (NodeId.ingredient (normKey x))
      then st.graph.addNode (NodeId.meal st.meal_counter)
        (mealData (ts.getD now) pu (st.meal_counter + 1))
      else (st.graph.addNode (NodeId.meal st.meal_counter)
        (mealData (ts.getD now) pu (st.meal_counter + 1))).addNode
        (NodeId.ingredient (normKey x)) (ingredientData x)).addEdge
      (NodeId.meal st.meal_counter) (NodeId.ingredient (normKey x))
      "CONTAINS" "contains").HasNode (NodeId.ingredient (normKey x)) := by
    rw [hasNode_of_nodes_eq _ _ hG2', hasNode_mk_append]
    by_cases hx : st.graph.HasNode (NodeId.ingredient (normKey x))
    · left
      rw [hasNode_mk_append]
      left
      exact hx
    · right
      rw [if_neg hx]
      show NodeId.ingredient (normKey x) ∈ _
      simp [Graph.nodeIds]
  have hnut_iff : ((if (st.graph.addNode (NodeId.meal st.meal_counter)
      (mealData (ts.getD now) pu (st.meal_counter + 1))).HasNode
        (NodeId.ingredient (normKey x))
      then st.graph.addNode (NodeId.meal st.meal_counter)
        (mealData (ts.getD now) pu (st.meal_counter + 1))
      else (st.graph.addNode (NodeId.meal st.meal_counter)
        (mealData (ts.getD now) pu (st.meal_counter + 1))).addNode
        (NodeId.ingredient (normKey x)) (ingredientData x)).addEdge
      (NodeId.meal st.meal_counter) (NodeId.ingredient (normKey x))
      "CONTAINS" "contains").HasNode (NodeId.nutrient (normKey b)) ↔
      st.graph.HasNode (NodeId.nutrient (normKey b)) := by
    rw [hasNode_of_nodes_eq _ _ hG2', hasNode_mk_append, hasNode_mk_append]
    constructor
    · rintro ((h | h) | h)
      · exact h
      · exfalso
        revert h
        show NodeId.nutrient (normKey b) ∈ _ → False
        simp [Graph.nodeIds]
      · exfalso
        revert h
        by_cases hx : st.graph.HasNode (NodeId.ingredient (normKey x))
        · rw [if_pos hx]
          show NodeId.nutrient (normKey b) ∈ _ → False
          simp [Graph.nodeIds]
        · rw [if_neg hx]
          show NodeId.nutrient (normKey b) ∈ _ → False
          simp [Graph.nodeIds]
    · intro h
      exact Or.inl (Or.inl h)
  by_cases hb : st.graph.HasNode (NodeId.nutrient (normKey b))
  · rw [addMealNutrientStep_nodes_present _ _ _ hG2ing (hnut_iff.mpr hb),
      hG2', if_pos hb, List.append_nil]
  · rw [addMealNutrientStep_nodes_absent _ _ _ hG2ing
      (fun hc => hb (hnut_iff.mp hc)), hG2', if_neg hb]

theorem add_meal_nutrient_dedup (now : TS) (st : NutriState) (x b : String)
    (ts : Option TS) (pu : Option String) (hwf : StateWF st) :
    ((add_meal now st [x] [(x, [b])] ts pu).1.graph.countId
        (NodeId.nutrient (normKey b)) =
      if st.graph.HasNode (NodeId.nutrient (normKey b))
      then st.graph.countId (NodeId.nutrient (normKey b)) else 1) ∧
    ((get_stats (add_meal now st [x] [(x, [b])] ts pu).1.graph).nutrients =
      if st.graph.HasNode (NodeId.nutrient (normKey b))
      then (get_stats st.graph).nutrients
      else (get_stats st.graph).nutrients + 1) ∧
    (add_meal now st [x] [(x, [b])] ts pu).1.graph.HasNode
      (NodeId.nutrient (normKey b)) := by
  have hnodes := add_meal_nutrient_nodes now st x b ts pu hwf
  have hmid0 : Graph.countId ⟨[(NodeId.meal st.meal_counter,
      mealData (ts.getD now) pu (st.meal_counter + 1))], []⟩
      (NodeId.nutrient (normKey b)) = 0 := by simp [Graph.countId]
  have hing0 : Graph.countId ⟨(if st.graph.HasNode
      (NodeId.ingredient (normKey x)) then []
      else [(NodeId.ingredient (normKey x), ingredientData x)]), []⟩
      (NodeId.nutrient (normKey b)) = 0 := by
    by_cases hx : st.graph.HasNode (NodeId.ingredient (normKey x))
    · rw [if_pos hx]
      simp [Graph.countId]
    · rw [if_neg hx]
      simp [Graph.countId]
  have hmidT : Graph.countType ⟨[(NodeId.meal st.meal_counter,
      mealData (ts.getD now) pu (st.meal_counter + 1))], []⟩ "Nutrient"
      = 0 := by simp [Graph.countType, mealData]
  have hingT : Graph.countType ⟨(if st.graph.HasNode
      (NodeId.ingredient (normKey x)) then []
      else [(NodeId.ingredient (normKey x), ingredientData x)]), []⟩
      "Nutrient" = 0 := by
    by_cases hx : st.graph.HasNode (NodeId.ingredient (normKey x))
    · rw [if_pos hx]
      simp [Graph.countType]
    · rw [if_neg hx]
      simp [Graph.countType, ingredientData]
  refine ⟨?_, ?_, ?_⟩
  · rw [countId_congr (add_meal now st [x] [(x, [b])] ts pu).1.graph
      ⟨((st.graph.nodes ++ [(NodeId.meal st.meal_counter,
        mealData (ts.getD now) pu (st.meal_counter + 1))]) ++
        (if st.graph.HasNode (NodeId.ingredient (normKey x)) then []
          else [(NodeId.ingredient (normKey x), ingredientData x)])) ++
        (if st.graph.HasNode (NodeId.nutrient (normKey b)) then []
          else [(NodeId.nutrient (normKey b), nutrientData b)]), []⟩
      _ (by rw [hnodes])]
    rw [countId_append, countId_append, countId_append]
    rw [show Graph.countId ⟨st.graph.nodes, []⟩ (NodeId.nutrient (normKey b))
      = st.graph.countId (NodeId.nutrient (normKey b)) from
      countId_congr _ _ _ rfl]
    rw [hmid0, hing0]
    by_cases hb : st.graph.HasNode (NodeId.nutrient (normKey b))
    · rw [if_pos hb, if_pos hb]
      simp [Graph.countId]
    · rw [if_neg hb, if_neg hb, countId_eq_zero st.graph _ hb]
      simp [Graph.countId]
  · simp only [get_stats]
    rw [countType_congr (add_meal now st [x] [(x, [b])] ts pu).1.graph
      ⟨((st.graph.nodes ++ [(NodeId.meal st.meal_counter,
        mealData (ts.getD now) pu (st.meal_counter + 1))]) ++
        (if st.graph.HasNode (NodeId.ingredient (normKey x)) then []
          else [(NodeId.ingredient (normKey x), ingredientData x)])) ++
        (if st.graph.HasNode (NodeId.nutrient (normKey b)) then []
          else [(NodeId.nutrient (normKey b), nutrientData b)]), []⟩
      _ (by rw [hnodes])]
    rw [countType_append, countType_append, countType_append]
    rw [show Graph.countType ⟨st.graph.nodes, []⟩ "Nutrient" =
      st.graph.countType "Nutrient" from countType_congr _ _ _ rfl]
    rw [hmidT, hingT]
    by_cases hb : st.graph.HasNode (NodeId.nutrient (normKey b))
    · rw [if_pos hb, if_pos hb]
      simp [Graph.countType]
    · rw [if_neg hb, if_neg hb]
      simp [Graph.countType, nutrientData]
  · rw [hasNode_of_nodes_eq _ _ hnodes, hasNode_mk_append]
    by_cases hb : st.graph.HasNode (NodeId.nutrient (normKey b))
    · left
      rw [hasNode_mk_append]
      left
      rw [hasNode_mk_append]
      left
      exact hb
    · right
      rw [if_neg hb]
      show NodeId.nutrient (normKey b) ∈ _
      simp [Graph.nodeIds]

theorem add_user_log_pre_nodes (st : NutriState) (s sent : String) (ts : TS)
    (hwf : StateWF st) :
    (add_user_log_pre st s sent ts).graph.nodes =
      (st.graph.nodes ++
        [(NodeId.log st.log_counter, userLogData s sent ts)]) ++
      (if st.graph.HasNode (NodeId.symptom (normKey s)) then []
        else [(NodeId.symptom (normKey s), symptomData s)]) := by
  have hlfresh := log_counter_fresh st hwf
  have hg1has_l : (st.graph.addNode (NodeId.log st.log_counter)
      (userLogData s sent ts)).HasNode (NodeId.log st.log_counter) :=
    (hasNode_addNode _ _ _ _).mpr (Or.inr rfl)
  by_cases hsym : st.graph.HasNode (NodeId.symptom (normKey s))
  · have hg1has : (st.graph.addNode (NodeId.log st.log_counter)
        (userLogData s sent ts)).HasNode (NodeId.symptom (normKey s)) :=
      (hasNode_addNode _ _ _ _).mpr (Or.inl hsym)
    rw [add_user_log_pre_graph_pos st s sent ts hg1has,
      addEdge_nodes_of_hasNodes _ _ _ _ _ hg1has_l hg1has,
      addNode_fresh _ _ _ hlfresh, if_pos hsym, List.append_nil]
  · have hg1not : ¬ (st.graph.addNode (NodeId.log st.log_counter)
        (userLogData s sent ts)).HasNode (NodeId.symptom (normKey s)) := by
      intro hc
      rcases (hasNode_addNode _ _ _ _).mp hc with hc | hc
      · exact hsym hc
      · cases hc
    have hg2has_s : ((st.graph.addNode (NodeId.log st.log_counter)
        (userLogData s sent ts)).addNode (NodeId.symptom (normKey s))
        (symptomData s)).HasNode (NodeId.symptom (normKey s)) :=
      (hasNode_addNode _ _ _ _).mpr (Or.inr rfl)
    have hg2has_l : ((st.graph.addNode (NodeId.log st.log_counter)
        (userLogData s sent ts)).addNode (NodeId.symptom (normKey s))
        (symptomData s)).HasNode (NodeId.log st.log_counter) :=
      (hasNode_addNode _ _ _ _).mpr (Or.inl hg1has_l)
    rw [add_user_log_pre_graph_neg st s sent ts hg1not,
      addEdge_nodes_of_hasNodes _ _ _ _ _ hg2has_l hg2has_s,
      addNode_fresh _ _ _ hg1not, addNode_fresh _ _ _ hlfresh, if_neg hsym]

theorem add_user_log_ok (now : TS) (st : NutriState) (s sent : String)
    (ts? : Option TS) (w : Int) (st2 : NutriState) (lid : NodeId)
    (h : add_user_log now st s sent ts? w = Except.ok (st2, lid)) :
    lid = NodeId.log st.log_counter ∧
    st2.log_counter = st.log_counter + 1 ∧
    st2.meal_counter = st.meal_counter ∧
    ∃ T, (ts?.getD now).parse = some T ∧
      scanMeals T (3600 * w) (NodeId.log st.log_counter)
        (add_user_log_pre st s sent (ts?.getD now)).graph.nodes
        (add_user_log_pre st s sent (ts?.getD now)).graph =
        Except.ok st2.graph := by
  unfold add_user_log at h
  cases hpar : (ts?.getD now).parse with
  | none =>
    simp only [hpar] at h
    cases h
  | some T =>
    simp only [hpar] at h
    cases hscan : scanMeals T (3600 * w) (NodeId.log st.log_counter)
        (add_user_log_pre st s sent (ts?.getD now)).graph.nodes
        (add_user_log_pre st s sent (ts?.getD now)).graph with
    | error g2 =>
      rw [hscan] at h
      cases h
    | ok g2 =>
      rw [hscan] at h
      rw [Except.ok.injEq, Prod.mk.injEq] at h
      obtain ⟨h1, h2⟩ := h
      refine ⟨h2.symm, ?_, ?_, T, rfl, ?_⟩
      · rw [← h1]
        exact (add_user_log_pre_counters st s sent (ts?.getD now)).1
      · rw [← h1]
        exact (add_user_log_pre_counters st s sent (ts?.getD now)).2
      · rw [hscan, ← h1]

theorem add_user_log_ok_nodes (now : TS) (st : NutriState) (s sent : String)
    (ts? : Option TS) (w : Int) (st2 : NutriState) (lid : NodeId)
    (hwf : StateWF st)
    (h : add_user_log now st s sent ts? w = Except.ok (st2, lid)) :
    st2.graph.nodes =
      (st.graph.nodes ++
        [(NodeId.log st.log_counter, userLogData s sent (ts?.getD now))]) ++
      (if st.graph.HasNode (NodeId.symptom (normKey s)) then []
        else [(NodeId.symptom (normKey s), symptomData s)]) := by
  obtain ⟨-, -, -, T, -, hscan⟩ := add_user_log_ok now st s sent ts? w st2 lid h
  have hpre := add_user_log_pre_spec st s sent (ts?.getD now) hwf
  have hL : (add_user_log_pre st s sent (ts?.getD now)).graph.HasNode
      (NodeId.log st.log_counter) :=
    hasNode_of_lookup _ _ _ hpre.2.1
  have hall : ∀ p ∈ (add_user_log_pre st s sent (ts?.getD now)).graph.nodes,
      (add_user_log_pre st s sent (ts?.getD now)).graph.HasNode p.1 :=
    fun p hp => hasNode_of_mem _ p.1 p.2 (by rwa [Prod.mk.eta])
  have hnn := scanMeals_nodes T (3600 * w) (NodeId.log st.log_counter)
    (add_user_log_pre st s sent (ts?.getD now)).graph.nodes
    (add_user_log_pre st s sent (ts?.getD now)).graph st2.graph hL hall
    (Or.inl hscan)
  rw [hnn]
  exact add_user_log_pre_nodes st s sent (ts?.getD now) hwf

theorem add_user_log_symptom_dedup (now : TS) (st : NutriState)
    (s sent : String) (ts? : Option TS) (w : Int) (st2 : NutriState)
    (lid : NodeId) (hwf : StateWF st)
    (h : add_user_log now st s sent ts? w = Except.ok (st2, lid)) :
    (st2.graph.countId (NodeId.symptom (normKey s)) =
      if st.graph.HasNode (NodeId.symptom (normKey s))
      then st.graph.countId (NodeId.symptom (normKey s)) else 1) ∧
    ((get_stats st2.graph).symptoms =
      if st.graph.HasNode (NodeId.symptom (normKey s))
      then (get_stats st.graph).symptoms
      else (get_stats st.graph).symptoms + 1) ∧
    st2.graph.HasNode (NodeId.symptom (normKey s)) := by
  have hnodes := add_user_log_ok_nodes now st s sent ts? w st2 lid hwf h
  have hlog0 : Graph.countId ⟨[(NodeId.log st.log_counter,
      userLogData s sent (ts?.getD now))], []⟩
      (NodeId.symptom (normKey s)) = 0 := by simp [Graph.countId]
  have hlogT : Graph.countType ⟨[(NodeId.log st.log_counter,
      userLogData s sent (ts?.getD now))], []⟩ "Symptom" = 0 := by
    simp [Graph.countType, userLogData]
  refine ⟨?_, ?_, ?_⟩
  · rw [countId_congr st2.graph
      ⟨(st.graph.nodes ++ [(NodeId.log st.log_counter,
        userLogData s sent (ts?.getD now))]) ++
        (if st.graph.HasNode (NodeId.symptom (normKey s)) then []
          else [(NodeId.symptom (normKey s), symptomData s)]), []⟩
      _ (by rw [hnodes])]
    rw [countId_append, countId_append]
    rw [show Graph.countId ⟨st.graph.nodes, []⟩ (NodeId.symptom (normKey s))
      = st.graph.countId (NodeId.symptom (normKey s)) from
      countId_congr _ _ _ rfl]
    rw [hlog0]
    by_cases hb : st.graph.HasNode (NodeId.symptom (normKey s))
    · rw [if_pos hb, if_pos hb]
      simp [Graph.countId]
    · rw [if_neg hb, if_neg hb, countId_eq_zero st.graph _ hb]
      simp [Graph.countId]
  · simp only [get_stats]
    rw [countType_congr st2.graph
      ⟨(st.graph.nodes ++ [(NodeId.log st.log_counter,
        userLogData s sent (ts?.getD now))]) ++
        (if st.graph.HasNode (NodeId.symptom (normKey s)) then []
          else [(NodeId.symptom (normKey s), symptomData s)]), []⟩
      _ (by rw [hnodes])]
    rw [countType_append, countType_append]
    rw [show Graph.countType ⟨st.graph.nodes, []⟩ "Symptom" =
      st.graph.countType "Symptom" from countType_congr _ _ _ rfl]
    rw [hlogT]
    by_cases hb : st.graph.HasNode (NodeId.symptom (normKey s))
    · rw [if_pos hb, if_pos hb]
      simp [Graph.countType]
    · rw [if_neg hb, if_neg hb]
      simp [Graph.countType, symptomData]
  · rw [hasNode_of_nodes_eq _ _ hnodes, hasNode_mk_append]
    by_cases hb : st.graph.HasNode (NodeId.symptom (normKey s))
    · left
      rw [hasNode_mk_append]
      left
      exact hb
    · right
      rw [if_neg hb]
      show NodeId.symptom (normKey s) ∈ _
      simp [Graph.nodeIds]

/-- Claim C6: ingredient, nutrient and symptom names that agree after
lower-casing and space-to-underscore normalization share one node.  For
each kind: inserting a name `a` and then, from any later well-formed
state, a name `b` with the same normalized key (via `add_meal` for
ingredients and nutrients, via `add_user_log` for symptoms), the second
insertion reuses the existing node — the per-type node count of
`get_stats` is unchanged by it — and when the key was initially absent
the two insertions together leave exactly one node with that id. -/
theorem C6_normalized_node_reuse (a b : String)
    (hn : normKey a = normKey b) :
    (∀ (now now' : TS) (st : NutriState) (ts ts' : Option TS)
        (pu pu' : Option String), StateWF st →
      StateWF (add_meal now st [a] [] ts pu).1 →
      (¬ st.graph.HasNode (NodeId.ingredient (normKey a)) →
        (add_meal now' (add_meal now st [a] [] ts pu).1 [b] [] ts'
          pu').1.graph.countId (NodeId.ingredient (normKey a)) = 1) ∧
      (get_stats (add_meal now' (add_meal now st [a] [] ts pu).1 [b] [] ts'
          pu').1.graph).ingredients =
        (get_stats (add_meal now st [a] [] ts pu).1.graph).ingredients) ∧
    (∀ (x : String) (now now' : TS) (st : NutriState) (ts ts' : Option TS)
        (pu pu' : Option String), StateWF st →
      StateWF (add_meal now st [x] [(x, [a])] ts pu).1 →
      (¬ st.graph.HasNode (NodeId.nutrient (normKey a)) →
        (add_meal now' (add_meal now st [x] [(x, [a])] ts pu).1 [x]
          [(x, [b])] ts' pu').1.graph.countId
          (NodeId.nutrient (normKey a)) = 1) ∧
      (get_stats (add_meal now' (add_meal now st [x] [(x, [a])] ts pu).1 [x]
          [(x, [b])] ts' pu').1.graph).nutrients =
        (get_stats (add_meal now st [x] [(x, [a])] ts pu).1.graph).nutrients) ∧
    (∀ (now now' : TS) (st : NutriState) (sent sent' : String)
        (ts ts' : Option TS) (w w' : Int) (st1 st2 : NutriState)
        (l1 l2 : NodeId), StateWF st →
      add_user_log now st a sent ts w = Except.ok (st1, l1) →
      StateWF st1 →
      add_user_log now' st1 b sent' ts' w' = Except.ok (st2, l2) →
      (¬ st.graph.HasNode (NodeId.symptom (normKey a)) →
        st2.graph.countId (NodeId.symptom (normKey a)) = 1) ∧
      (get_stats st2.graph).symptoms = (get_stats st1.graph).symptoms) := by
  refine ⟨?_, ?_, ?_⟩
  · intro now now' st ts ts' pu pu' hwf hwf1
    obtain ⟨hc1, -, hh1⟩ := add_meal_single_dedup now st a ts pu hwf
    obtain ⟨hc2, hs2, -⟩ := add_meal_single_dedup now'
      (add_meal now st [a] [] ts pu).1 b ts' pu' hwf1
    rw [hn] at hc1 hh1
    constructor
    · intro habs
      rw [hn] at habs ⊢
      rw [hc2, if_pos hh1, hc1, if_neg habs]
    · rw [hs2, if_pos hh1]
  · intro x now now' st ts ts' pu pu' hwf hwf1
    obtain ⟨hc1, -, hh1⟩ := add_meal_nutrient_dedup now st x a ts pu hwf
    obtain ⟨hc2, hs2, -⟩ := add_meal_nutrient_dedup now'
      (add_meal now st [x] [(x, [a])] ts pu).1 x b ts' pu' hwf1
    rw [hn] at hc1 hh1
    constructor
    · intro habs
      rw [hn] at habs ⊢
      rw [hc2, if_pos hh1, hc1, if_neg habs]
    · rw [hs2, if_pos hh1]
  · intro now now' st sent sent' ts ts' w w' st1 st2 l1 l2 hwf h1 hwf1 h2
    obtain ⟨hc1, -, hh1⟩ :=
      add_user_log_symptom_dedup now st a sent ts w st1 l1 hwf h1
    obtain ⟨hc2, hs2, -⟩ :=
      add_user_log_symptom_dedup now' st1 b sent' ts' w' st2 l2 hwf1 h2
    rw [hn] at hc1 hh1
    constructor
    · intro habs
      rw [hn] at habs ⊢
      rw [hc2, if_pos hh1, hc1, if_neg habs]
    · rw [hs2, if_pos hh1]

/-- Concrete instantiation of claim C6: "Cherry Tomatoes" and
"cherry tomatoes" normalize to the same key; inserting one and then the
other leaves the ingredient count unchanged by the second insertion and
exactly one `ingredient_cherry_tomatoes` node. -/
theorem C6_normalized_node_reuse_witness :
    (normKey "Cherry Tomatoes" = normKey "cherry tomatoes" ∧
      StateWF ({} : NutriState) ∧
      StateWF (add_meal (TS.valid 0) {} ["Cherry Tomatoes"] []
        (some (TS.valid 0)) none).1 ∧
      ¬ ({} : NutriState).graph.HasNode
        (NodeId.ingredient (normKey "Cherry Tomatoes"))) ∧
    (add_meal (TS.valid 0)
        (add_meal (TS.valid 0) {} ["Cherry Tomatoes"] []
          (some (TS.valid 0)) none).1
        ["cherry tomatoes"] [] (some (TS.valid 0)) none).1.graph.countId
      (NodeId.ingredient (normKey "Cherry Tomatoes")) = 1 ∧
    (get_stats (add_meal (TS.valid 0)
        (add_meal (TS.valid 0) {} ["Cherry Tomatoes"] []
          (some (TS.valid 0)) none).1
        ["cherry tomatoes"] [] (some (TS.valid 0)) none).1.graph).ingredients =
      (get_stats (add_meal (TS.valid 0) {} ["Cherry Tomatoes"] []
        (some (TS.valid 0)) none).1.graph).ingredients :=
  ⟨⟨by decide, by decide, by decide, by decide⟩,
    ((C6_normalized_node_reuse "Cherry Tomatoes" "cherry tomatoes"
        (by decide)).1 (TS.valid 0) (TS.valid 0) {} (some (TS.valid 0))
        (some (TS.valid 0)) none none (by decide) (by decide)).1 (by decide),
    ((C6_normalized_node_reuse "Cherry Tomatoes" "cherry tomatoes"
        (by decide)).1 (TS.valid 0) (TS.valid 0) {} (some (TS.valid 0))
        (some (TS.valid 0)) none none (by decide) (by decide)).2⟩

/-- The edge the meal scan adds for one node-dictionary entry, if any:
defined exactly by the guards of `scanMeals` (Meal-typed, non-falsy
parseable timestamp, strictly-positive difference within the window). -/
def scanEdge? (T W : Int) (L : NodeId) (p : NodeId × NodeData) :
    Option Edge :=
  if p.2.node_type = some "Meal" then
    match p.2.timestamp with
    | none => none
    | some ts =>
      if ts.isFalsy then none
      else
        match ts.parse with
        | none => none
        | some mt =>
          if 0 < T - mt ∧ T - mt ≤ W then
            some ⟨p.1, L, "LOGGED_NEAR", hoursLabel (T - mt)⟩
          else none
  else none

theorem scanEdge?_eq_some (T W : Int) (L : NodeId) (p : NodeId × NodeData)
    (e : Edge) :
    scanEdge? T W L p = some e ↔
      p.2.node_type = some "Meal" ∧
      ∃ mt, p.2.timestamp = some (TS.valid mt) ∧ 0 < T - mt ∧ T - mt ≤ W ∧
        e = ⟨p.1, L, "LOGGED_NEAR", hoursLabel (T - mt)⟩ := by
  unfold scanEdge?
  by_cases hm : p.2.node_type = some "Meal"
  · rw [if_pos hm]
    cases hts : p.2.timestamp with
    | none => simp [hm]
    | some ts =>
      cases ts with
      | valid s =>
        have : (TS.valid s).isFalsy = false := rfl
        simp only [this, Bool.false_eq_true, if_false, TS.parse]
        by_cases hc : 0 < T - s ∧ T - s ≤ W
        · rw [if_pos hc]
          constructor
          · intro h
            rw [Option.some_inj] at h
            exact ⟨hm, s, rfl, hc.1, hc.2, h.symm⟩
          · rintro ⟨-, mt, hmt, h1, h2, he⟩
            rw [Option.some_inj] at hmt
            cases hmt
            rw [he]
        · rw [if_neg hc]
          constructor
          · intro h
            cases h
          · rintro ⟨-, mt, hmt, h1, h2, he⟩
            rw [Option.some_inj] at hmt
            cases hmt
            exact absurd ⟨h1, h2⟩ hc
      | invalid r =>
        constructor
        · intro h
          by_cases hr : r = ""
          · subst hr
            simp [TS.isFalsy] at h
          · simp [TS.isFalsy, TS.parse, hr] at h
        · rintro ⟨-, mt, hmt, -⟩
          cases hmt
  · rw [if_neg hm]
    constructor
    · intro h
      cases h
    · rintro ⟨hm', -⟩
      exact absurd hm' hm

theorem scanMeals_ok_edges (T W : Int) (L : NodeId) :
    ∀ (nodes : List (NodeId × NodeData)) (g g' : Graph),
      (∀ e ∈ g.edges, e.tgt = L → e.src ∉ nodes.map Prod.fst) →
      (nodes.map Prod.fst).Nodup →
      scanMeals T W L nodes g = Except.ok g' →
      g'.edges = g.edges ++ nodes.filterMap (scanEdge? T W L) := by
  intro nodes
  induction nodes with
  | nil =>
    intro g g' _ _ h
    cases h
    simp
  | cons p rest ih =>
    intro g g' hfresh hnd h
    have hndt : (rest.map Prod.fst).Nodup := by
      rw [List.map_cons] at hnd
      exact (List.nodup_cons.mp hnd).2
    have hhd : p.1 ∉ rest.map Prod.fst := by
      rw [List.map_cons] at hnd
      exact (List.nodup_cons.mp hnd).1
    have hfresht : ∀ e ∈ g.edges, e.tgt = L → e.src ∉ rest.map Prod.fst :=
      fun e he ht hc => hfresh e he ht (by
        rw [List.map_cons]
        exact List.mem_cons_of_mem _ hc)
    have hskip : ∀ hsp : scanEdge? T W L p = none,
        scanMeals T W L rest g = Except.ok g' →
        g'.edges = g.edges ++ (p :: rest).filterMap (scanEdge? T W L) := by
      intro hsp hrec
      rw [List.filterMap_cons_none hsp]
      exact ih g g' hfresht hndt hrec
    by_cases hm : p.2.node_type = some "Meal"
    · simp only [scanMeals, if_pos hm] at h
      cases hts : p.2.timestamp with
      | none =>
        simp only [hts] at h
        exact hskip (by simp [scanEdge?, hm, hts]) h
      | some ts =>
        simp only [hts] at h
        by_cases hfal : ts.isFalsy = true
        · rw [if_pos hfal] at h
          exact hskip (by simp [scanEdge?, hm, hts, hfal]) h
        · rw [if_neg hfal] at h
          cases hpar : ts.parse with
          | none =>
            simp only [hpar] at h
            cases h
          | some mt =>
            simp only [hpar] at h
            by_cases hcond : 0 < T - mt ∧ T - mt ≤ W
            · rw [if_pos hcond] at h
              have hvalid : ts = TS.valid mt := by
                cases ts with
                | valid s =>
                  simp only [TS.parse, Option.some_inj] at hpar
                  rw [hpar]
                | invalid r => cases hpar
              have hnew : (g.addEdge p.1 L "LOGGED_NEAR"
                  (hoursLabel (T - mt))).edges =
                  g.edges ++ [⟨p.1, L, "LOGGED_NEAR", hoursLabel (T - mt)⟩] := by
                apply addEdge_edges_of_fresh
                intro e he
                rintro ⟨hs', ht'⟩
                exact hfresh e he ht' (by
                  rw [List.map_cons, hs']
                  exact List.mem_cons_self _ _)
              have hfresh2 : ∀ e ∈ (g.addEdge p.1 L "LOGGED_NEAR"
                  (hoursLabel (T - mt))).edges, e.tgt = L →
                  e.src ∉ rest.map Prod.fst := by
                intro e he ht'
                rw [hnew] at he
                rcases List.mem_append.mp he with he | he
                · exact hfresht e he ht'
                · rw [List.mem_singleton.mp he]
                  exact hhd
              have := ih (g.addEdge p.1 L "LOGGED_NEAR" (hoursLabel (T - mt)))
                g' hfresh2 hndt h
              rw [this, hnew]
              have hsp : scanEdge? T W L p =
                  some ⟨p.1, L, "LOGGED_NEAR", hoursLabel (T - mt)⟩ :=
                (scanEdge?_eq_some T W L p _).mpr
                  ⟨hm, mt, by rw [hts, hvalid], hcond.1, hcond.2, rfl⟩
              rw [List.filterMap_cons_some hsp, List.append_assoc]
              rfl
            · rw [if_neg hcond] at h
              have hvalid : ts = TS.valid mt := by
                cases ts with
                | valid s =>
                  simp only [TS.parse, Option.some_inj] at hpar
                  rw [hpar]
                | invalid r => cases hpar
              have hsp : scanEdge? T W L p = none := by
                cases he : scanEdge? T W L p with
                | none => rfl
                | some e2 =>
                  obtain ⟨-, mt', hmt', h1, h2, -⟩ :=
                    (scanEdge?_eq_some T W L p e2).mp he
                  rw [hts] at hmt'
                  rw [hvalid] at hmt'
                  rw [Option.some_inj, TS.valid.injEq] at hmt'
                  subst hmt'
                  exact absurd ⟨h1, h2⟩ hcond
              exact hskip hsp h
    · simp only [scanMeals, if_neg hm] at h
      exact hskip (by simp [scanEdge?, hm]) h

theorem foldl_edges_preserve {α : Type} (f : Graph → α → Graph)
    (hf : ∀ g a, ∀ e ∈ (f g a).edges, e.edge_type = "LOGGED_NEAR" →
      e ∈ g.edges) :
    ∀ (l : List α) (g : Graph), ∀ e ∈ (l.foldl f g).edges,
      e.edge_type = "LOGGED_NEAR" → e ∈ g.edges := by
  intro l
  induction l with
  | nil => intro g e he _; exact he
  | cons a rest ih =>
    intro g e he hLN
    exact hf g a e (ih (f g a) e he hLN) hLN

theorem addMealNutrientStep_edges_preserve (ing_id : NodeId) (g : Graph)
    (nm : String) :
    ∀ e ∈ (addMealNutrientStep ing_id g nm).edges,
      e.edge_type = "LOGGED_NEAR" → e ∈ g.edges := by
  intro e he hLN
  have hg1 : ∀ g1 : Graph, g1.edges = g.edges →
      e ∈ (if g1.edges.any fun e2 => decide (e2.src = ing_id ∧
          e2.tgt = NodeId.nutrient (normKey nm)) then g1
        else g1.addEdge ing_id (NodeId.nutrient (normKey nm))
          "HAS_NUTRIENT" "has nutrient").edges → e ∈ g.edges := by
    intro g1 hg1e he2
    split at he2
    · rwa [hg1e] at he2
    · rcases mem_addEdge_edges g1 _ _ _ _ e he2 with h | h
      · rwa [hg1e] at h
      · rw [h] at hLN
        simp at hLN
  simp only [addMealNutrientStep] at he
  by_cases hnut : g.HasNode (NodeId.nutrient (normKey nm))
  · rw [if_pos hnut] at he
    exact hg1 g rfl he
  · rw [if_neg hnut] at he
    exact hg1 _ (addNode_edges _ _ _) he

theorem addMealIngredientStep_edges_preserve
    (nj : List (String × List String)) (mid : NodeId) (g : Graph)
    (nm : String) :
    ∀ e ∈ (addMealIngredientStep nj mid g nm).edges,
      e.edge_type = "LOGGED_NEAR" → e ∈ g.edges := by
  intro e he hLN
  simp only [addMealIngredientStep] at he
  have h2 := foldl_edges_preserve
    (addMealNutrientStep (NodeId.ingredient (normKey nm)))
    (fun g' a => addMealNutrientStep_edges_preserve _ g' a)
    (lookupListD nj nm) _ e he hLN
  rcases mem_addEdge_edges _ _ _ _ _ e h2 with h | h
  · by_cases hing : g.HasNode (NodeId.ingredient (normKey nm))
    · rwa [if_pos hing] at h
    · rw [if_neg hing] at h
      rwa [addNode_edges] at h
  · rw [h] at hLN
    simp at hLN

theorem add_meal_no_logged_near (now : TS) (st : NutriState)
    (ings : List String) (nj : List (String × List String))
    (ts : Option TS) (pu : Option String) :
    ∀ e ∈ (add_meal now st ings nj ts pu).1.graph.edges,
      e.edge_type = "LOGGED_NEAR" → e ∈ st.graph.edges := by
  intro e he hLN
  rw [add_meal_graph] at he
  have h2 := foldl_edges_preserve
    (addMealIngredientStep nj (NodeId.meal st.meal_counter))
    (fun g' a => addMealIngredientStep_edges_preserve nj _ g' a)
    ings _ e he hLN
  rwa [addNode_edges] at h2

theorem lookupNode_eq_alookup (g : Graph) (i : NodeId) :
    g.lookupNode i = alookup g.nodes i := rfl

theorem add_user_log_pre_nodes_nodup (st : NutriState) (s sent : String)
    (ts : TS) (hwf : StateWF st) :
    ((add_user_log_pre st s sent ts).graph.nodes.map Prod.fst).Nodup := by
  rw [add_user_log_pre_nodes st s sent ts hwf, List.map_append]
  have hbase : ((st.graph.nodes ++
      [(NodeId.log st.log_counter, userLogData s sent ts)]).map
      Prod.fst).Nodup := by
    rw [List.map_append]
    refine List.Nodup.append hwf.1.1 (by simp) ?_
    intro x hx hx'
    simp only [List.map_cons, List.map_nil, List.mem_singleton] at hx'
    rw [hx'] at hx
    exact log_counter_fresh st hwf hx
  by_cases hsym : st.graph.HasNode (NodeId.symptom (normKey s))
  · rw [if_pos hsym]
    simpa using hbase
  · rw [if_neg hsym]
    refine List.Nodup.append hbase (by simp) ?_
    intro x hx hx'
    simp only [List.map_cons, List.map_nil, List.mem_singleton] at hx'
    rw [hx'] at hx
    rw [List.map_append] at hx
    rcases List.mem_append.mp hx with hx | hx
    · exact hsym hx
    · simp at hx

theorem add_user_log_pre_no_edge_to_log (st : NutriState) (s sent : String)
    (ts : TS) (hwf : StateWF st) :
    ∀ e ∈ (add_user_log_pre st s sent ts).graph.edges,
      ¬ e.tgt = NodeId.log st.log_counter := by
  obtain ⟨he, -, -, -, -, -⟩ := add_user_log_pre_spec st s sent ts hwf
  intro e hmem ht
  rw [he] at hmem
  rcases List.mem_append.mp hmem with hmem | hmem
  · exact no_edge_to_fresh st hwf _ (log_counter_fresh st hwf) e hmem
      (Or.inr ht)
  · rw [List.mem_singleton.mp hmem] at ht
    cases ht

/-- Claim C1: after a successful `add_user_log` call with parseable
timestamp `T` and window `w`, a `LOGGED_NEAR` edge from `M` to the newly
created UserLog exists iff `M` was a Meal node of the pre-call state
whose (parseable) timestamp `mt` satisfies `0 < T − mt ≤ 3600·w`
seconds; meals at or after `T`, or more than `w` hours before, are not
linked, and a subsequent `add_meal` never adds a `LOGGED_NEAR` edge, so
later meals are never retroactively linked to the log. -/
theorem C1_logged_near_linking (now : TS) (st : NutriState)
    (s sent : String) (T w : Int) (st2 : NutriState) (L : NodeId)
    (hwf : StateWF st)
    (h : add_user_log now st s sent (some (TS.valid T)) w =
      Except.ok (st2, L)) :
    L = NodeId.log st.log_counter ∧
    (∀ M : NodeId,
      (∃ lbl, (⟨M, L, "LOGGED_NEAR", lbl⟩ : Edge) ∈ st2.graph.edges) ↔
      (∃ d, st.graph.lookupNode M = some d ∧ d.node_type = some "Meal" ∧
        ∃ mt, d.timestamp = some (TS.valid mt) ∧
          0 < T - mt ∧ T - mt ≤ 3600 * w)) ∧
    (∀ (now' : TS) (ings : List String)
        (nj : List (String × List String)) (ts' : Option TS)
        (pu' : Option String),
      ∀ e ∈ (add_meal now' st2 ings nj ts' pu').1.graph.edges,
        e.edge_type = "LOGGED_NEAR" → e ∈ st2.graph.edges) := by
  obtain ⟨hL, -, -, T', hpar, hscan⟩ :=
    add_user_log_ok now st s sent (some (TS.valid T)) w st2 L h
  have htsv : ((some (TS.valid T)).getD now) = TS.valid T := rfl
  rw [htsv] at hpar hscan
  simp only [TS.parse, Option.some_inj] at hpar
  subst hpar
  subst hL
  have hnodup : ((add_user_log_pre st s sent
      (TS.valid T)).graph.nodes.map Prod.fst).Nodup :=
    add_user_log_pre_nodes_nodup st s sent (TS.valid T) hwf
  have hnoL := add_user_log_pre_no_edge_to_log st s sent (TS.valid T) hwf
  have hedges := scanMeals_ok_edges T (3600 * w) (NodeId.log st.log_counter)
    (add_user_log_pre st s sent (TS.valid T)).graph.nodes
    (add_user_log_pre st s sent (TS.valid T)).graph st2.graph
    (fun e he ht _ => hnoL e he ht) hnodup hscan
  have hpn := add_user_log_pre_nodes st s sent (TS.valid T) hwf
  have hndst : (akeys st.graph.nodes).Nodup := hwf.1.1
  refine ⟨rfl, ?_, ?_⟩
  · intro M
    constructor
    · rintro ⟨lbl, hmem⟩
      rw [hedges] at hmem
      rcases List.mem_append.mp hmem with hmem | hmem
      · exact absurd rfl (hnoL _ hmem)
      · rcases List.mem_filterMap.mp hmem with ⟨p, hp, hsp⟩
        obtain ⟨hmT, mt, hts, h1, h2, heq⟩ :=
          (scanEdge?_eq_some _ _ _ p _).mp hsp
        rw [Edge.mk.injEq] at heq
        obtain ⟨hsrc, -, -, -⟩ := heq
        rw [hpn] at hp
        rcases List.mem_append.mp hp with hp | hp
        · rcases List.mem_append.mp hp with hp | hp
          · refine ⟨p.2, ?_, hmT, mt, hts, h1, h2⟩
            rw [lookupNode_eq_alookup]
            exact (mem_iff_alookup hndst M p.2).mp
              (by rw [hsrc]; rwa [Prod.mk.eta])
          · rw [List.mem_singleton.mp hp] at hmT
            simp [userLogData] at hmT
        · by_cases hsym : st.graph.HasNode (NodeId.symptom (normKey s))
          · rw [if_pos hsym] at hp
            simp at hp
          · rw [if_neg hsym] at hp
            rw [List.mem_singleton.mp hp] at hmT
            simp [symptomData] at hmT
    · rintro ⟨d, hlk, hmT, mt, hts, h1, h2⟩
      refine ⟨hoursLabel (T - mt), ?_⟩
      rw [hedges]
      refine List.mem_append_right _ ?_
      refine List.mem_filterMap.mpr ⟨(M, d), ?_, ?_⟩
      · rw [hpn]
        refine List.mem_append_left _ (List.mem_append_left _ ?_)
        rw [lookupNode_eq_alookup] at hlk
        exact (mem_iff_alookup hndst M d).mpr hlk
      · exact (scanEdge?_eq_some _ _ _ (M, d) _).mpr
          ⟨hmT, mt, hts, h1, h2, rfl⟩
  · intro now' ings nj ts' pu'
    exact add_meal_no_logged_near now' st2 ings nj ts' pu'

/-- Claim C1's witness store: `meal_0` two hours before the log time,
`meal_1` after it. -/
def c1Store : NutriState :=
  (add_meal (TS.valid 0)
    (add_meal (TS.valid 0) {} ["avocado"] [] (some (TS.valid 7200)) none).1
    ["cheese"] [] (some (TS.valid 90000)) none).1

/-- The state after logging "Bloated" at `T = 14400` over `c1Store`. -/
def c1After : NutriState :=
  match add_user_log (TS.valid 0) c1Store "Bloated" "negative"
      (some (TS.valid 14400)) 3 with
  | Except.ok (st, _) => st
  | Except.error st => st

/-- Concrete instantiation of claim C1: the two-meal store is
well-formed, the log call succeeds, and the linking iff holds at
`meal_0` (which is inside the window). -/
theorem C1_logged_near_linking_witness :
    (StateWF c1Store ∧
      add_user_log (TS.valid 0) c1Store "Bloated" "negative"
        (some (TS.valid 14400)) 3 = Except.ok (c1After, NodeId.log 0)) ∧
    ((∃ lbl, (⟨NodeId.meal 0, NodeId.log 0, "LOGGED_NEAR", lbl⟩ : Edge) ∈
        c1After.graph.edges) ↔
      (∃ d, c1Store.graph.lookupNode (NodeId.meal 0) = some d ∧
        d.node_type = some "Meal" ∧
        ∃ mt, d.timestamp = some (TS.valid mt) ∧
          0 < 14400 - mt ∧ 14400 - mt ≤ 3600 * 3)) :=
  ⟨⟨by decide, by rfl⟩,
    (C1_logged_near_linking (TS.valid 0) c1Store "Bloated" "negative"
      14400 3 c1After (NodeId.log 0) (by decide) (by rfl)).2.1
      (NodeId.meal 0)⟩

theorem nodeDataD_eq_of_lookup (g : Graph) (i : NodeId) (d : NodeData)
    (h : g.lookupNode i = some d) : g.nodeDataD i = d := by
  unfold Graph.nodeDataD
  rw [h]
  rfl

theorem lookupNode_mem (g : Graph) (i : NodeId) (d : NodeData)
    (h : g.lookupNode i = some d) : (i, d) ∈ g.nodes := by
  unfold Graph.lookupNode at h
  cases hf : g.nodes.find? fun p => decide (p.1 = i) with
  | none => rw [hf] at h; cases h
  | some p =>
    rw [hf] at h
    have hval : p.2 = d := by simpa using h
    have hkey : p.1 = i := by
      have := List.find?_some hf
      simpa using this
    have hmem := List.mem_of_find?_eq_some hf
    rw [show (i, d) = p from Prod.ext hkey.symm hval.symm]
    exact hmem

/-- A stored timestamp value that the scans can process without
raising: absent, parseable, or the falsy empty string. -/
def tsOkB : Option TS → Bool
  | some (TS.invalid r) => decide (r = "")
  | _ => true

/-- All node timestamps in the graph are processable (true of every
state whose stored timestamps are valid ISO strings). -/
def TimesOk (g : Graph) : Prop := ∀ p ∈ g.nodes, tsOkB p.2.timestamp = true

instance (g : Graph) : Decidable (TimesOk g) := by
  unfold TimesOk
  infer_instance

theorem tsOk_cases (o : Option TS) (h : tsOkB o = true) :
    o = none ∨ (∃ t, o = some (TS.valid t)) ∨ o = some (TS.invalid "") := by
  cases o with
  | none => exact Or.inl rfl
  | some ts =>
    cases ts with
    | valid t => exact Or.inr (Or.inl ⟨t, rfl⟩)
    | invalid r =>
      have : r = "" := by simpa [tsOkB] using h
      rw [this]
      exact Or.inr (Or.inr rfl)

theorem nodeDataD_tsOk (g : Graph) (ht : TimesOk g) (i : NodeId) :
    tsOkB (g.nodeDataD i).timestamp = true := by
  cases hl : g.lookupNode i with
  | none =>
    unfold Graph.nodeDataD
    rw [hl]
    rfl
  | some d =>
    unfold Graph.nodeDataD
    rw [hl]
    exact ht (i, d) (lookupNode_mem g i d hl)

theorem coOccurPerOther_isSome (g : Graph) (sid lid : NodeId) (lt : Int)
    (p : NodeId × NodeData) (h : tsOkB p.2.timestamp = true) :
    (coOccurPerOther g sid lid lt p).isSome := by
  unfold coOccurPerOther
  split
  · rcases tsOk_cases _ h with h0 | ⟨t, h0⟩ | h0
    · simp [h0]
    · simp only [h0, TS.isFalsy, TS.parse]
      split
      · simp
      · split <;> simp
    · simp [h0, TS.isFalsy]
  · simp

theorem coOccurNamesForLog_isSome (g : Graph) (sid lid : NodeId) (lt : Int)
    (ht : TimesOk g) : (coOccurNamesForLog g sid lid lt).isSome := by
  unfold coOccurNamesForLog
  exact collectSome_isSome _ _ fun p hp =>
    coOccurPerOther_isSome g sid lid lt p (ht p hp)

theorem coOccurPerLog_isSome (g : Graph) (sid : NodeId) (ht : TimesOk g)
    (lid : NodeId) : (coOccurPerLog g sid lid).isSome := by
  unfold coOccurPerLog
  rcases tsOk_cases _ (nodeDataD_tsOk g ht lid) with h0 | ⟨t, h0⟩ | h0
  · simp [h0]
  · simp only [h0, TS.isFalsy, TS.parse]
    exact coOccurNamesForLog_isSome g sid lid t ht
  · simp [h0, TS.isFalsy]

theorem get_co_some (g : Graph) (s : String) (ht : TimesOk g)
    (hHas : g.HasNode (NodeId.symptom (normKey s))) :
    ∃ occ, collectSome (coOccurPerLog g (NodeId.symptom (normKey s)))
        (g.predecessors (NodeId.symptom (normKey s))) = some occ ∧
      get_co_occurring_symptoms g s =
        some (sortByDesc (fun p => p.2) (buildCounts occ)) := by
  have hS := collectSome_isSome (coOccurPerLog g (NodeId.symptom (normKey s)))
    (g.predecessors (NodeId.symptom (normKey s)))
    (fun lid _ => coOccurPerLog_isSome g _ ht lid)
  rcases Option.isSome_iff_exists.mp hS with ⟨occ, hocc⟩
  refine ⟨occ, hocc, ?_⟩
  unfold get_co_occurring_symptoms
  rw [if_neg (not_not_intro hHas), hocc]

theorem coOccurPerOther_hit (g : Graph) (sid lid : NodeId) (lt : Int)
    (b : NodeId) (db : NodeData) (hu : db.node_type = some "UserLog")
    (hne : b ≠ lid) (t : Int) (htb : db.timestamp = some (TS.valid t))
    (hd : (lt - t).natAbs ≤ 3600) :
    coOccurPerOther g sid lid lt (b, db) = some (coOccurCollect g sid b) := by
  simp [coOccurPerOther, hu, hne, htb, hd, TS.isFalsy, TS.parse]

theorem coOccurPerLog_hit (g : Graph) (sid lid : NodeId) (t : Int)
    (hts : (g.nodeDataD lid).timestamp = some (TS.valid t)) :
    coOccurPerLog g sid lid = coOccurNamesForLog g sid lid t := by
  simp [coOccurPerLog, hts, TS.isFalsy, TS.parse]

theorem coOccurCollect_mem (g : Graph) (sid b y : NodeId) (dy : NodeData)
    (hy : ∃ e ∈ g.edges, e.src = b ∧ e.tgt = y)
    (hl : g.lookupNode y = some dy) (hty : dy.node_type = some "Symptom")
    (hne : y ≠ sid) : dy.name ∈ coOccurCollect g sid b := by
  unfold coOccurCollect
  apply List.mem_filterMap.mpr
  refine ⟨y, (mem_successors g b y).mpr hy, ?_⟩
  rw [nodeDataD_eq_of_lookup g y dy hl, if_pos ⟨hty, hne⟩]

/-- One direction of co-occurrence: if log `A` of the queried symptom
has parsed time `tA`, and a distinct UserLog `B` at time `tB` within
one hour of `tA` experiences the Symptom node `symY ≠ symX`, then the
query for `X` succeeds and reports `Y`'s name with positive count. -/
theorem coOccur_includes (g : Graph) (X : String) (A B : NodeId)
    (dA dB dY : NodeData) (tA tB : Int) (symY : NodeId)
    (ht : TimesOk g)
    (hHasX : g.HasNode (NodeId.symptom (normKey X)))
    (hA : g.lookupNode A = some dA)
    (hAt : dA.timestamp = some (TS.valid tA))
    (hB : g.lookupNode B = some dB)
    (hBu : dB.node_type = some "UserLog")
    (hBt : dB.timestamp = some (TS.valid tB))
    (hBA : B ≠ A)
    (heA : ∃ e ∈ g.edges, e.src = A ∧ e.tgt = NodeId.symptom (normKey X))
    (heB : ∃ e ∈ g.edges, e.src = B ∧ e.tgt = symY)
    (hY : g.lookupNode symY = some dY)
    (hYtype : dY.node_type = some "Symptom")
    (hne : symY ≠ NodeId.symptom (normKey X))
    (hdist : (tA - tB).natAbs ≤ 3600) :
    ∃ l, get_co_occurring_symptoms g X = some l ∧
      ∃ c, (dY.name, c) ∈ l ∧ 1 ≤ c := by
  obtain ⟨occ, houter, hres⟩ := get_co_some g X ht hHasX
  have hApred : A ∈ g.predecessors (NodeId.symptom (normKey X)) := by
    rw [mem_predecessors]
    obtain ⟨e, he, hs, ht2⟩ := heA
    exact ⟨e, he, ht2, hs⟩
  obtain ⟨ysA, hysA⟩ := Option.isSome_iff_exists.mp
    (coOccurNamesForLog_isSome g (NodeId.symptom (normKey X)) A tA ht)
  have hfA : coOccurPerLog g (NodeId.symptom (normKey X)) A = some ysA := by
    rw [coOccurPerLog_hit g _ A tA
      (by rw [nodeDataD_eq_of_lookup g A dA hA]; exact hAt)]
    exact hysA
  have hysA' : collectSome
      (coOccurPerOther g (NodeId.symptom (normKey X)) A tA) g.nodes =
      some ysA := hysA
  have hmemY : dY.name ∈ ysA :=
    collectSome_mem _ hysA' (lookupNode_mem g B dB hB)
      (coOccurPerOther_hit g (NodeId.symptom (normKey X)) A tA B dB hBu hBA
        tB hBt hdist)
      (coOccurCollect_mem g (NodeId.symptom (normKey X)) B symY dY heB hY
        hYtype hne)
  have hocc : dY.name ∈ occ :=
    collectSome_mem _ houter hApred hfA hmemY
  have hpos : 0 < @List.count _ instBEqOfDecidableEq dY.name occ :=
    (@List.count_pos_iff _ instBEqOfDecidableEq inferInstance dY.name
      occ).mpr hocc
  refine ⟨_, hres, _, ?_, hpos⟩
  rw [mem_sortByDesc]
  exact (mem_buildCounts_iff occ dY.name _).mpr ⟨rfl, hpos⟩

/-- C9: co-occurrence is symmetric.  For UserLog nodes `A` (reporting
symptom `X` via an `EXPERIENCED` edge) and `B` (reporting `Y`, distinct
from `X` after normalization) whose parsed timestamps differ by at most
3600 seconds in absolute value, and whose store has processable
timestamps throughout, `get_co_occurring_symptoms X` succeeds and
includes `Y` with count at least 1, and vice versa. -/
theorem C9_co_occurrence_symmetric (g : Graph) (X Y : String) (A B : NodeId)
    (dA dB dX dY : NodeData) (tA tB : Int)
    (ht : TimesOk g)
    (hA : g.lookupNode A = some dA) (hAu : dA.node_type = some "UserLog")
    (hAt : dA.timestamp = some (TS.valid tA))
    (hB : g.lookupNode B = some dB) (hBu : dB.node_type = some "UserLog")
    (hBt : dB.timestamp = some (TS.valid tB))
    (hAB : A ≠ B)
    (hX : g.lookupNode (NodeId.symptom (normKey X)) = some dX)
    (hXtype : dX.node_type = some "Symptom") (hXname : dX.name = some X)
    (hY : g.lookupNode (NodeId.symptom (normKey Y)) = some dY)
    (hYtype : dY.node_type = some "Symptom") (hYname : dY.name = some Y)
    (hkey : normKey X ≠ normKey Y)
    (heA : ∃ e ∈ g.edges, e.src = A ∧ e.tgt = NodeId.symptom (normKey X) ∧
      e.edge_type = "EXPERIENCED")
    (heB : ∃ e ∈ g.edges, e.src = B ∧ e.tgt = NodeId.symptom (normKey Y) ∧
      e.edge_type = "EXPERIENCED")
    (hdist : (tA - tB).natAbs ≤ 3600) :
    (∃ l, get_co_occurring_symptoms g X = some l ∧
        ∃ c, (some Y, c) ∈ l ∧ 1 ≤ c) ∧
    (∃ l, get_co_occurring_symptoms g Y = some l ∧
        ∃ c, (some X, c) ∈ l ∧ 1 ≤ c) := by
  have heA' : ∃ e ∈ g.edges, e.src = A ∧
      e.tgt = NodeId.symptom (normKey X) := by
    obtain ⟨e, he, h1, h2, _⟩ := heA
    exact ⟨e, he, h1, h2⟩
  have heB' : ∃ e ∈ g.edges, e.src = B ∧
      e.tgt = NodeId.symptom (normKey Y) := by
    obtain ⟨e, he, h1, h2, _⟩ := heB
    exact ⟨e, he, h1, h2⟩
  have hne1 : NodeId.symptom (normKey Y) ≠ NodeId.symptom (normKey X) := by
    intro hc
    injection hc with h2
    exact hkey h2.symm
  have hne2 : NodeId.symptom (normKey X) ≠ NodeId.symptom (normKey Y) := by
    intro hc
    injection hc with h2
    exact hkey h2
  constructor
  · have h1 := coOccur_includes g X A B dA dB dY tA tB
      (NodeId.symptom (normKey Y)) ht (hasNode_of_lookup g _ dX hX) hA hAt
      hB hBu hBt (Ne.symm hAB) heA' heB' hY hYtype hne1 hdist
    rwa [hYname] at h1
  · have h2 := coOccur_includes g Y B A dB dA dX tB tA
      (NodeId.symptom (normKey X)) ht (hasNode_of_lookup g _ dY hY) hB hBt
      hA hAu hAt hAB heB' heA' hX hXtype hne2 (by omega)
    rwa [hXname] at h2

/-- A store with two user logs half an hour apart, for claim C9's
witness: "Bloated" at time 0 and "Sluggish" at time 1800. -/
def c9Store : NutriState :=
  match add_user_log (TS.valid 0) {} "Bloated" "negative"
      (some (TS.valid 0)) 3 with
  | Except.error st => st
  | Except.ok (st, _) =>
    match add_user_log (TS.valid 0) st "Sluggish" "negative"
        (some (TS.valid 1800)) 3 with
    | Except.error st2 => st2
    | Except.ok (st2, _) => st2

/-- Concrete instantiation of claim C9 on `c9Store`: querying
"Bloated" reports "Sluggish" with positive count and vice versa. -/
theorem C9_co_occurrence_symmetric_witness :
    (∃ l, get_co_occurring_symptoms c9Store.graph "Bloated" = some l ∧
        ∃ c, (some "Sluggish", c) ∈ l ∧ 1 ≤ c) ∧
    (∃ l, get_co_occurring_symptoms c9Store.graph "Sluggish" = some l ∧
        ∃ c, (some "Bloated", c) ∈ l ∧ 1 ≤ c) :=
  C9_co_occurrence_symmetric c9Store.graph "Bloated" "Sluggish"
    (NodeId.log 0) (NodeId.log 1)
    (userLogData "Bloated" "negative" (TS.valid 0))
    (userLogData "Sluggish" "negative" (TS.valid 1800))
    (symptomData "Bloated") (symptomData "Sluggish") 0 1800
    (by decide) (by decide) (by decide) (by decide) (by decide) (by decide)
    (by decide) (by decide) (by decide) (by decide) (by decide) (by decide)
    (by decide) (by decide) (by decide) (by decide) (by decide) (by decide)

/-- Sources of the incoming edges of `v` that carry edge type `et` (one
arrow of the spec's typed traversal). -/
def typedPreds (g : Graph) (et : String) (v : NodeId) : List NodeId :=
  (g.edges.filter fun e =>
    decide (e.tgt = v) && decide (e.edge_type = et)).map Edge.src

/-- Targets of the outgoing edges of `u` that carry edge type `et`. -/
def typedSuccs (g : Graph) (et : String) (u : NodeId) : List NodeId :=
  (g.edges.filter fun e =>
    decide (e.src = u) && decide (e.edge_type = et)).map Edge.tgt

/-- The spec's `Meal → CONTAINS → Ingredient` step reaches an ingredient
node displaying name `n` from `m`. -/
def mealHasIngredientNamed (g : Graph) (m : NodeId) (n : String) : Bool :=
  (typedSuccs g "CONTAINS" m).any fun i =>
    match g.lookupNode i with
    | some d =>
      decide (d.node_type = some "Ingredient") && decide (d.name = some n)
    | none => false

/-- The `(UserLog, Meal)` correlation paths of the spec's
`Symptom ← EXPERIENCED ← UserLog ← LOGGED_NEAR ← Meal → CONTAINS →
Ingredient` traversal that reach an ingredient displaying name `n`. -/
def specPairs (g : Graph) (symptom n : String) : List (NodeId × NodeId) :=
  (typedPreds g "EXPERIENCED"
      (NodeId.symptom (normKey symptom))).flatMap fun log_id =>
    (typedPreds g "LOGGED_NEAR" log_id).filterMap fun meal_id =>
      if mealHasIngredientNamed g meal_id n then some (log_id, meal_id)
      else none

theorem filterMap_ite_length (p : α → Bool) (f : α → β) (l : List α) :
    (l.filterMap fun x => if p x then some (f x) else none).length =
      l.countP p := by
  induction l with
  | nil => rfl
  | cons x xs ih =>
    by_cases h : p x = true
    · simp [List.filterMap_cons, h, List.countP_cons, ih]
    · simp [List.filterMap_cons, h, List.countP_cons, ih]

theorem countP_flatMap (p : β → Bool) (f : α → List β) (l : List α) :
    (l.flatMap f).countP p = (l.map fun x => (f x).countP p).sum := by
  induction l with
  | nil => rfl
  | cons x xs ih => simp [List.flatMap_cons, List.countP_append, ih]

theorem sum_map_ite_one (p : α → Bool) (l : List α) :
    (l.map fun x => if p x then 1 else 0).sum = l.countP p := by
  induction l with
  | nil => rfl
  | cons x xs ih =>
    by_cases h : p x = true
    all_goals simp [h, List.countP_cons, ih]
    all_goals omega

theorem countP_filterMap_unique [DecidableEq β] (f : α → Option β) (b : β)
    (l : List α) (hnd : l.Nodup)
    (huni : ∀ x ∈ l, ∀ y ∈ l, f x = some b → f y = some b → x = y) :
    ((l.filterMap f).countP fun y => decide (y = b)) =
      if l.any fun x => decide (f x = some b) then 1 else 0 := by
  induction l with
  | nil => rfl
  | cons x xs ih =>
    rcases List.nodup_cons.mp hnd with ⟨hx, hnd'⟩
    have ihx := ih hnd' fun a ha c hc =>
      huni a (List.mem_cons_of_mem x ha) c (List.mem_cons_of_mem x hc)
    cases hfx : f x with
    | none =>
      rw [List.filterMap_cons_none hfx, List.any_cons]
      simp [hfx, ihx]
    | some y =>
      rw [List.filterMap_cons_some hfx]
      by_cases hyb : y = b
      · subst hyb
        have htail : ((xs.filterMap f).countP fun z => decide (z = y)) = 0 := by
          rw [List.countP_eq_zero]
          intro z hz
          rcases List.mem_filterMap.mp hz with ⟨a, ha, hfa⟩
          simp only [decide_eq_true_eq]
          intro hzy
          subst hzy
          have hxa : x = a := huni x (List.mem_cons_self x xs) a
            (List.mem_cons_of_mem x ha) hfx hfa
          exact hx (by rw [hxa]; exact ha)
        rw [List.countP_cons, List.any_cons, htail]
        simp [hfx]
      · rw [List.countP_cons, List.any_cons]
        simp [hyb, hfx, ihx]

theorem edgeShape_tgt_symptom (e : Edge) (h : edgeShapeOkB e = true)
    (k : String) (ht : e.tgt = NodeId.symptom k) :
    e.edge_type = "EXPERIENCED" ∧ ∃ j, e.src = NodeId.log j := by
  obtain ⟨s, t, ty, lb⟩ := e
  have ht' : t = NodeId.symptom k := ht
  subst ht'
  cases s with
  | meal a => simp [edgeShapeOkB] at h
  | ingredient a => simp [edgeShapeOkB] at h
  | nutrient a => simp [edgeShapeOkB] at h
  | symptom a => simp [edgeShapeOkB] at h
  | log j =>
    refine ⟨?_, j, rfl⟩
    simpa [edgeShapeOkB] using h

theorem edgeShape_tgt_log (e : Edge) (h : edgeShapeOkB e = true)
    (k : Nat) (ht : e.tgt = NodeId.log k) :
    e.edge_type = "LOGGED_NEAR" ∧ ∃ j, e.src = NodeId.meal j := by
  obtain ⟨s, t, ty, lb⟩ := e
  have ht' : t = NodeId.log k := ht
  subst ht'
  cases s with
  | meal j =>
    refine ⟨?_, j, rfl⟩
    simpa [edgeShapeOkB] using h
  | ingredient a => simp [edgeShapeOkB] at h
  | nutrient a => simp [edgeShapeOkB] at h
  | symptom a => simp [edgeShapeOkB] at h
  | log a => simp [edgeShapeOkB] at h

theorem edgeShape_tgt_ingredient (e : Edge) (h : edgeShapeOkB e = true)
    (k : String) (ht : e.tgt = NodeId.ingredient k) :
    e.edge_type = "CONTAINS" ∧ ∃ j, e.src = NodeId.meal j := by
  obtain ⟨s, t, ty, lb⟩ := e
  have ht' : t = NodeId.ingredient k := ht
  subst ht'
  cases s with
  | meal j =>
    refine ⟨?_, j, rfl⟩
    simpa [edgeShapeOkB] using h
  | ingredient a => simp [edgeShapeOkB] at h
  | nutrient a => simp [edgeShapeOkB] at h
  | symptom a => simp [edgeShapeOkB] at h
  | log a => simp [edgeShapeOkB] at h

theorem preds_symptom_typed (g : Graph) (hWF : GraphWF g) (k : String) :
    g.predecessors (NodeId.symptom k) =
      typedPreds g "EXPERIENCED" (NodeId.symptom k) := by
  unfold Graph.predecessors typedPreds
  congr 1
  apply List.filter_congr
  intro e he
  by_cases ht : e.tgt = NodeId.symptom k
  · have := (edgeShape_tgt_symptom e (hWF.2.2.2.1 e he) k ht).1
    simp [ht, this]
  · simp [ht]

theorem preds_symptom_logs (g : Graph) (hWF : GraphWF g) (k : String) :
    ∀ x ∈ g.predecessors (NodeId.symptom k), ∃ j, x = NodeId.log j := by
  intro x hx
  rcases (mem_predecessors g _ x).mp hx with ⟨e, he, ht, hs⟩
  rcases (edgeShape_tgt_symptom e (hWF.2.2.2.1 e he) k ht).2 with ⟨j, hj⟩
  exact ⟨j, hs ▸ hj⟩

theorem preds_log_typed (g : Graph) (hWF : GraphWF g) (j : Nat) :
    g.predecessors (NodeId.log j) =
      typedPreds g "LOGGED_NEAR" (NodeId.log j) := by
  unfold Graph.predecessors typedPreds
  congr 1
  apply List.filter_congr
  intro e he
  by_cases ht : e.tgt = NodeId.log j
  · have := (edgeShape_tgt_log e (hWF.2.2.2.1 e he) j ht).1
    simp [ht, this]
  · simp [ht]

theorem mem_typedSuccs (g : Graph) (et : String) (u x : NodeId) :
    x ∈ typedSuccs g et u ↔
      ∃ e ∈ g.edges, e.src = u ∧ e.tgt = x ∧ e.edge_type = et := by
  unfold typedSuccs
  simp only [List.mem_map, List.mem_filter, Bool.and_eq_true,
    decide_eq_true_eq]
  constructor
  · rintro ⟨e, ⟨he, hs, hty⟩, rfl⟩
    exact ⟨e, he, hs, rfl, hty⟩
  · rintro ⟨e, he, hs, ht, hty⟩
    exact ⟨e, ⟨he, hs, hty⟩, ht⟩

theorem lookup_of_hasNode (g : Graph) (hnd : g.nodeIds.Nodup) (i : NodeId)
    (h : g.HasNode i) : ∃ d, g.lookupNode i = some d := by
  rcases (hasNode_iff g i).mp h with ⟨d, hd⟩
  exact ⟨d, by
    rw [lookupNode_eq_alookup]
    exact (mem_iff_alookup hnd i d).mp hd⟩

theorem nodup_tgt_filter (l : List Edge) (m : NodeId)
    (h : (l.map fun e => (e.src, e.tgt)).Nodup) :
    ((l.filter fun e => decide (e.src = m)).map Edge.tgt).Nodup := by
  induction l with
  | nil => simp
  | cons e es ih =>
    rw [List.map_cons, List.nodup_cons] at h
    by_cases hm : e.src = m
    · rw [List.filter_cons_of_pos (by simp [hm]), List.map_cons,
        List.nodup_cons]
      refine ⟨?_, ih h.2⟩
      intro hmem
      rcases List.mem_map.mp hmem with ⟨e', he', htgt⟩
      have he'' := List.mem_of_mem_filter he'
      have hm' : e'.src = m := by
        have := List.of_mem_filter he'
        simpa using this
      apply h.1
      apply List.mem_map.mpr
      exact ⟨e', he'', by rw [hm', htgt, hm]⟩
    · rw [List.filter_cons_of_neg (by simp [hm])]
      exact ih h.2

theorem successors_nodup (g : Graph) (hWF : GraphWF g) (m : NodeId) :
    (g.successors m).Nodup :=
  nodup_tgt_filter g.edges m hWF.2.1

theorem ingName_successor (g : Graph) (hWF : GraphWF g) (m x : NodeId)
    (hx : x ∈ g.successors m) (n : String) (hn : ingNameF g x = some n) :
    x = NodeId.ingredient (normKey n) ∧
      ∃ d, g.lookupNode x = some d ∧ d.node_type = some "Ingredient" ∧
        d.name = some n := by
  rcases (mem_successors g m x).mp hx with ⟨e, he, _, htg⟩
  have hclose : g.HasNode x := htg ▸ (hWF.2.2.2.2 e he).2
  rcases lookup_of_hasNode g hWF.1 x hclose with ⟨d, hd⟩
  have hattr := hWF.2.2.1 (x, d) (lookupNode_mem g x d hd)
  have hdd : g.nodeDataD x = d := nodeDataD_eq_of_lookup g x d hd
  simp only [ingNameF, hdd] at hn
  by_cases htype : d.node_type = some "Ingredient"
  · rw [if_pos htype] at hn
    have hgetD : d.name.getD x.toIdString = n := by simpa using hn
    cases x with
    | ingredient k =>
      cases hname : d.name with
      | none => simp [nodeAttrOkB, hname] at hattr
      | some nm =>
        simp only [nodeAttrOkB, hname, Bool.and_eq_true,
          decide_eq_true_eq] at hattr
        have hnm : nm = n := by
          rw [hname] at hgetD
          simpa using hgetD
        subst hnm
        exact ⟨by rw [hattr.2], d, hd, htype, hname⟩
    | meal a =>
      have hmt : d.node_type = some "Meal" := by
        simpa [nodeAttrOkB] using hattr
      rw [hmt] at htype
      simp at htype
    | log a =>
      have hmt : d.node_type = some "UserLog" := by
        simpa [nodeAttrOkB] using hattr
      rw [hmt] at htype
      simp at htype
    | nutrient a =>
      cases hname : d.name with
      | none => simp [nodeAttrOkB, hname] at hattr
      | some nm =>
        simp only [nodeAttrOkB, hname, Bool.and_eq_true,
          decide_eq_true_eq] at hattr
        rw [hattr.1] at htype
        simp at htype
    | symptom a =>
      cases hname : d.name with
      | none => simp [nodeAttrOkB, hname] at hattr
      | some nm =>
        simp only [nodeAttrOkB, hname, Bool.and_eq_true,
          decide_eq_true_eq] at hattr
        rw [hattr.1] at htype
        simp at htype
  · rw [if_neg htype] at hn
    cases hn

theorem any_ingName_eq_flag (g : Graph) (hWF : GraphWF g) (m : NodeId)
    (n : String) :
    ((g.successors m).any fun x => decide (ingNameF g x = some n)) =
      mealHasIngredientNamed g m n := by
  rw [Bool.eq_iff_iff, List.any_eq_true]
  unfold mealHasIngredientNamed
  rw [List.any_eq_true]
  constructor
  · rintro ⟨x, hx, hdec⟩
    have hf : ingNameF g x = some n := by simpa using hdec
    rcases ingName_successor g hWF m x hx n hf with ⟨hxid, d, hd, htype, hname⟩
    subst hxid
    refine ⟨NodeId.ingredient (normKey n), ?_, ?_⟩
    · rcases (mem_successors g m _).mp hx with ⟨e, he, hs, htg⟩
      have hty := (edgeShape_tgt_ingredient e (hWF.2.2.2.1 e he)
        (normKey n) htg).1
      exact (mem_typedSuccs g "CONTAINS" m _).mpr ⟨e, he, hs, htg, hty⟩
    · simp only [hd, Bool.and_eq_true, decide_eq_true_eq]
      exact ⟨htype, hname⟩
  · rintro ⟨i, hi, hmatch⟩
    rcases (mem_typedSuccs g "CONTAINS" m i).mp hi with ⟨e, he, hs, htg, hty⟩
    have hsucc : i ∈ g.successors m :=
      (mem_successors g m i).mpr ⟨e, he, hs, htg⟩
    refine ⟨i, hsucc, ?_⟩
    cases hl : g.lookupNode i with
    | none =>
      simp only [hl] at hmatch
      cases hmatch
    | some d =>
      simp only [hl, Bool.and_eq_true, decide_eq_true_eq] at hmatch
      have hdd : g.nodeDataD i = d := nodeDataD_eq_of_lookup g i d hl
      simp [ingNameF, hdd, hmatch.1, hmatch.2]

theorem succ_ing_countP (g : Graph) (hWF : GraphWF g) (m : NodeId)
    (n : String) :
    (((g.successors m).filterMap (ingNameF g)).countP
        fun y => decide (y = n)) =
      if mealHasIngredientNamed g m n then 1 else 0 := by
  rw [← any_ingName_eq_flag g hWF m n]
  exact countP_filterMap_unique (ingNameF g) n _ (successors_nodup g hWF m)
    fun x hx y hy hfx hfy => by
      rw [(ingName_successor g hWF m x hx n hfx).1,
        (ingName_successor g hWF m y hy n hfy).1]

theorem log_level_count (g : Graph) (hWF : GraphWF g) (j : Nat) (n : String) :
    (((g.predecessors (NodeId.log j)).flatMap fun meal_id =>
        (g.successors meal_id).filterMap (ingNameF g)).countP
      fun y => decide (y = n)) =
      ((typedPreds g "LOGGED_NEAR" (NodeId.log j)).filterMap fun meal_id =>
        if mealHasIngredientNamed g meal_id n then
          some (NodeId.log j, meal_id)
        else none).length := by
  rw [countP_flatMap, ← preds_log_typed g hWF j,
    filterMap_ite_length (fun meal_id => mealHasIngredientNamed g meal_id n)
      (fun meal_id => (NodeId.log j, meal_id)),
    ← sum_map_ite_one (fun meal_id => mealHasIngredientNamed g meal_id n)]
  apply congrArg List.sum
  apply List.map_congr_left
  intro meal_id _
  exact succ_ing_countP g hWF meal_id n

theorem occ_countP (g : Graph) (hWF : GraphWF g) (s n : String) :
    (((g.predecessors (NodeId.symptom (normKey s))).flatMap fun log_id =>
        (g.predecessors log_id).flatMap fun meal_id =>
          (g.successors meal_id).filterMap (ingNameF g)).countP
      fun y => decide (y = n)) = (specPairs g s n).length := by
  rw [countP_flatMap]
  unfold specPairs
  rw [← preds_symptom_typed g hWF (normKey s), List.length_flatMap]
  apply congrArg List.sum
  apply List.map_congr_left
  intro lg hlg
  rcases preds_symptom_logs g hWF (normKey s) lg hlg with ⟨j, hj⟩
  subst hj
  exact log_level_count g hWF j n

theorem count_eq_countP_decide [DecidableEq β] (l : List β) (b : β) :
    @List.count β instBEqOfDecidableEq b l =
      l.countP fun y => decide (y = b) := rfl

/-- C2: under the graph invariants, `query_ingredients_for_symptom s`
holds exactly one `(name, count)` pair for each ingredient name with at
least one `Symptom ← EXPERIENCED ← UserLog ← LOGGED_NEAR ← Meal →
CONTAINS → Ingredient` correlation path, the count being the number of
distinct `(UserLog, Meal)` correlation paths reaching that name; keys
are not repeated and the list is sorted descending by count. -/
theorem C2_query_count_characterization (g : Graph) (s : String)
    (hWF : GraphWF g) :
    (∀ n c, ((n, c) ∈ query_ingredients_for_symptom g s ↔
        (specPairs g s n).length = c ∧ 0 < c)) ∧
    ((query_ingredients_for_symptom g s).map Prod.fst).Nodup ∧
    ((query_ingredients_for_symptom g s).Pairwise fun a b => b.2 ≤ a.2) := by
  by_cases hHas : g.HasNode (NodeId.symptom (normKey s))
  · have hq : query_ingredients_for_symptom g s =
        sortByDesc (fun p => p.2) (buildCounts
          ((g.predecessors (NodeId.symptom (normKey s))).flatMap fun log_id =>
            (g.predecessors log_id).flatMap fun meal_id =>
              (g.successors meal_id).filterMap (ingNameF g))) := by
      simp only [query_ingredients_for_symptom]
      rw [if_neg (not_not_intro hHas)]
    refine ⟨?_, ?_, ?_⟩
    · intro n c
      rw [hq, mem_sortByDesc, mem_buildCounts_iff, count_eq_countP_decide,
        occ_countP g hWF s n]
    · rw [hq]
      have hperm := (sortByDesc_perm (fun p : String × Nat => p.2)
        (buildCounts
          ((g.predecessors (NodeId.symptom (normKey s))).flatMap fun log_id =>
            (g.predecessors log_id).flatMap fun meal_id =>
              (g.successors meal_id).filterMap (ingNameF g)))).map Prod.fst
      exact hperm.nodup_iff.mpr (buildCounts_akeys_nodup _)
    · rw [hq]
      exact sortByDesc_pairwise _ _
  · have hq : query_ingredients_for_symptom g s = [] := by
      simp only [query_ingredients_for_symptom]
      rw [if_pos hHas]
    refine ⟨?_, by simp [hq], by simp [hq]⟩
    intro n c
    rw [hq]
    have hempty : typedPreds g "EXPERIENCED"
        (NodeId.symptom (normKey s)) = [] := by
      unfold typedPreds
      rw [List.filter_eq_nil_iff.mpr ?_]
      · rfl
      intro e he
      simp only [Bool.and_eq_true, decide_eq_true_eq, not_and]
      intro ht _
      exact hHas (ht ▸ (hWF.2.2.2.2 e he).2)
    have hlen : specPairs g s n = [] := by
      unfold specPairs
      rw [hempty]
      rfl
    rw [hlen]
    simp only [List.not_mem_nil, false_iff, List.length_nil]
    intro h
    omega

/-- A store with two meals both containing avocado, each `LOGGED_NEAR`
exactly one of two "Headache" logs (the meals are far apart in time, so
each log's scan window catches only its own meal), for claim C2's
witness. -/
def c2Store : NutriState :=
  let st1 := (add_meal (TS.valid 0) {} ["avocado"] []
    (some (TS.valid 0)) none).1
  let st2 := (add_meal (TS.valid 0) st1 ["avocado"] []
    (some (TS.valid 100000)) none).1
  match add_user_log (TS.valid 0) st2 "Headache" "negative"
      (some (TS.valid 3600)) 3 with
  | Except.error st => st
  | Except.ok (st3, _) =>
    match add_user_log (TS.valid 0) st3 "Headache" "negative"
        (some (TS.valid 103600)) 3 with
    | Except.error st => st
    | Except.ok (st4, _) => st4

/-- Concrete instantiation of claim C2: the two-meal two-log store is
well-formed, the characterization applies to it, and the "Headache"
query indeed reports `("avocado", 2)` — one count per (UserLog, Meal)
correlation path. -/
theorem C2_query_count_characterization_witness :
    GraphWF c2Store.graph ∧
    (("avocado", 2) ∈ query_ingredients_for_symptom c2Store.graph "Headache" ↔
      (specPairs c2Store.graph "Headache" "avocado").length = 2 ∧ 0 < 2) ∧
    ("avocado", 2) ∈ query_ingredients_for_symptom c2Store.graph "Headache" :=
  ⟨by decide,
    (C2_query_count_characterization c2Store.graph "Headache"
      (by decide)).1 "avocado" 2,
    by decide⟩
